import Mathlib

/-!
Verification of the Bronze/Silver/Gold ETL pipeline
(`src/bronze/bronze_layer.py`, `src/silver/silver_layer.py`,
`src/gold/gold_layer.py`, `src/utils/data_utils.py`).

Tables are modelled as an ordered list of column names with row-major
cells; the tabular engine's column assignment, column drop/projection,
duplicate removal, group-by/aggregate, merge and null handling are
embedded as executable functions.  The flat-file store is a list of
path/table pairs.  Object aliasing (which pandas calls mutate their
argument in place) is modelled separately by a heap of tables.
-/

set_option maxHeartbeats 1000000

/-- A cell value of the tabular engine: integer, string, or null (NaN).
Float-valued cells (and hence float aggregations such as `mean`) are
outside the value domain of this embedding. -/
inductive Value where
  | vInt : Int → Value
  | vStr : String → Value
  | vNull : Value
deriving DecidableEq, Repr

instance : Inhabited Value := ⟨Value.vNull⟩

/-- An in-memory table: ordered column names plus row-major cells. -/
structure DataFrame where
  cols : List String
  rows : List (List Value)
deriving DecidableEq, Repr

instance : Inhabited DataFrame := ⟨⟨[], []⟩⟩

/-- Rectangularity: every row has one cell per column. -/
def DataFrame.WF (df : DataFrame) : Prop :=
  ∀ r ∈ df.rows, r.length = df.cols.length

instance (df : DataFrame) : Decidable df.WF :=
  inferInstanceAs (Decidable (∀ r ∈ df.rows, r.length = df.cols.length))

/-- Position of a column label (first occurrence), as pandas resolves labels. -/
def colIdx (df : DataFrame) (c : String) : Option Nat :=
  df.cols.findIdx? (· = c)

/-- The cells of one column, top to bottom (`df[c]`); `[]` if the label is absent. -/
def colVals (df : DataFrame) (c : String) : List Value :=
  match colIdx df c with
  | some i => df.rows.map (fun r => r.getD i Value.vNull)
  | none => []

/-- `df[name] = scalar`: overwrite the column in place if the label exists,
otherwise append it as the last column, broadcasting the scalar to every row. -/
def setColScalar (df : DataFrame) (name : String) (v : Value) : DataFrame :=
  match df.cols.findIdx? (· = name) with
  | some i => { df with rows := df.rows.map (fun r => r.set i v) }
  | none => { cols := df.cols ++ [name], rows := df.rows.map (fun r => r ++ [v]) }

/-- `df[name] = sequence`: like `setColScalar` but cell `j` of the new column
comes from position `j` of the sequence (missing positions become null, as
pandas index alignment fills with NaN). -/
def setColList (df : DataFrame) (name : String) (vs : List Value) : DataFrame :=
  match df.cols.findIdx? (· = name) with
  | some i =>
      { df with rows := df.rows.enum.map (fun p => p.2.set i (vs.getD p.1 Value.vNull)) }
  | none =>
      { cols := df.cols ++ [name],
        rows := df.rows.enum.map (fun p => p.2 ++ [vs.getD p.1 Value.vNull]) }

/-- `df.drop(columns=...)`: remove every column whose label is listed. -/
def dropCols (df : DataFrame) (names : List String) : DataFrame :=
  { cols := df.cols.filter (fun c => ¬ names.contains c),
    rows := df.rows.map (fun r =>
      ((df.cols.zip r).filter (fun cv => ¬ names.contains cv.1)).map Prod.snd) }

/-- `df[names]`: project onto the listed columns in the listed order
(call sites only pass labels that are present). -/
def selectCols (df : DataFrame) (names : List String) : DataFrame :=
  { cols := names,
    rows := df.rows.map (fun r => names.map (fun n =>
      match colIdx df n with
      | some i => r.getD i Value.vNull
      | none => Value.vNull)) }

/-- Worker for `dedupFirst`: `seen` holds the values already emitted. -/
def dedupFirstAux {α : Type} [DecidableEq α] (seen : List α) : List α → List α
  | [] => []
  | x :: xs => if x ∈ seen then dedupFirstAux seen xs else x :: dedupFirstAux (x :: seen) xs

/-- `df.drop_duplicates()`: keep the first occurrence of each element, order-stable. -/
def dedupFirst {α : Type} [DecidableEq α] (l : List α) : List α := dedupFirstAux [] l

/-- `df.dropna(...)` row filter: `nullCols = some l` checks the listed columns,
`none` checks every column. -/
def dropnaDf (df : DataFrame) (nullCols : Option (List String)) : DataFrame :=
  let idxs := match nullCols with
    | some l => l.filterMap (fun c => colIdx df c)
    | none => List.range df.cols.length
  { df with rows := df.rows.filter (fun r => idxs.all (fun i => r.getD i Value.vNull ≠ Value.vNull)) }

/-- The flat-file store: path to persisted table (`save_csv` overwrites whole files). -/
abbrev FS := List (String × DataFrame)

/-- `save_csv`: whole-file overwrite of the destination path. -/
def FS.save (fs : FS) (p : String) (df : DataFrame) : FS := (p, df) :: fs

inductive PipeErr where
  | notFound
deriving DecidableEq, Repr

/-- `load_csv` (`data_utils.py`): raise `FileNotFoundError` when the path does not
exist, otherwise return the persisted table. -/
def load_csv (fs : FS) (p : String) : Except PipeErr DataFrame :=
  match fs.lookup p with
  | none => .error .notFound
  | some df => .ok df

/-- `<layerPath>/<tableName>.csv`. -/
def tablePath (basePath name : String) : String := basePath ++ "/" ++ name ++ ".csv"

/-- `read_table` (identical in all three layers, modulo the base path). -/
def read_table (fs : FS) (basePath name : String) : Except PipeErr DataFrame :=
  load_csv fs (tablePath basePath name)

/-- The Bronze metadata columns. -/
def bronzeMeta : List String := ["_ingestion_timestamp", "_source_system"]

/-- The Silver metadata column. -/
def silverMeta : List String := ["_silver_timestamp"]

/-- `BronzeLayer._add_metadata`: two in-place column assignments. -/
def bronzeAddMeta (df : DataFrame) (now s : String) : DataFrame :=
  setColScalar (setColScalar df "_ingestion_timestamp" (Value.vStr now)) "_source_system" (Value.vStr s)

/-- `BronzeLayer.ingest_dataframe`: copy, stamp metadata, persist, return. -/
def ingest_dataframe (fs : FS) (basePath : String) (df : DataFrame)
    (name s now : String) : DataFrame × FS :=
  let out := bronzeAddMeta df now s
  (out, fs.save (tablePath basePath name) out)

/-- `BronzeLayer.ingest_data`: load the source file, stamp metadata, persist;
on a load failure nothing is written. -/
def ingest_data (fs : FS) (basePath srcPath name s now : String) :
    Except PipeErr DataFrame × FS :=
  match load_csv fs srcPath with
  | .error e => (.error e, fs)
  | .ok df =>
      let out := bronzeAddMeta df now s
      (.ok out, fs.save (tablePath basePath name) out)

/-- `SilverLayer.transform` steps 1-2: strip Bronze metadata, then apply the
caller-supplied transformation functions in order. -/
def silverCore (df : DataFrame) (ts : List (DataFrame → DataFrame)) : DataFrame :=
  ts.foldl (fun acc f => f acc) (dropCols df bronzeMeta)

/-- `SilverLayer.transform`: strip Bronze metadata, apply transformations,
optionally deduplicate and drop nulls, stamp `_silver_timestamp`, persist. -/
def transform (fs : FS) (basePath : String) (df : DataFrame) (name : String)
    (ts : List (DataFrame → DataFrame)) (dedup dropN : Bool)
    (nullCols : Option (List String)) (now : String) : DataFrame × FS :=
  let r1 := silverCore df ts
  let r2 := if dedup then { r1 with rows := dedupFirst r1.rows } else r1
  let r3 := if dropN then dropnaDf r2 nullCols else r2
  let out := setColScalar r3 "_silver_timestamp" (Value.vStr now)
  (out, fs.save (tablePath basePath name) out)

/-- The column renaming of `SilverLayer.clean_column_names`:
`col.lower().strip().replace(" ", "_").replace("-", "_")`. -/
def cleanName (c : String) : String :=
  ((c.toLower.trim).replace " " "_").replace "-" "_"

/-- `SilverLayer.clean_column_names`: pure rename of every column. -/
def clean_column_names (df : DataFrame) : DataFrame :=
  { df with cols := df.cols.map cleanName }

/-- `SilverLayer.standardize_dates`, parametrised by the engine's
`pd.to_datetime(..., errors="coerce")` and `.dt.strftime(format)` cell
primitives (external collaborators per the tabular-engine black box):
for each listed column that is present, both are applied in place. -/
def standardize_dates (toDt strf : Value → Value) (df : DataFrame)
    (dateColumns : List String) : DataFrame :=
  dateColumns.foldl (fun acc col =>
    match colIdx acc col with
    | some i => { acc with rows := acc.rows.map (fun r => r.set i (strf (toDt (r.getD i Value.vNull)))) }
    | none => acc) df

/-- `SilverLayer.cast_types`, parametrised by the engine's coercion
primitives for the four supported targets; absent columns and unknown
target types are skipped. -/
def cast_types (toIntF toFloatF toStrF toDtF : Value → Value) (df : DataFrame)
    (typeMapping : List (String × String)) : DataFrame :=
  typeMapping.foldl (fun acc cd =>
    match colIdx acc cd.1 with
    | some i =>
        if cd.2 = "int" then { acc with rows := acc.rows.map (fun r => r.set i (toIntF (r.getD i Value.vNull))) }
        else if cd.2 = "float" then { acc with rows := acc.rows.map (fun r => r.set i (toFloatF (r.getD i Value.vNull))) }
        else if cd.2 = "str" then { acc with rows := acc.rows.map (fun r => r.set i (toStrF (r.getD i Value.vNull))) }
        else if cd.2 = "datetime" then { acc with rows := acc.rows.map (fun r => r.set i (toDtF (r.getD i Value.vNull))) }
        else acc
    | none => acc) df

/-- An aggregation request for one column: a single function name
(`{"col": "sum"}`) or a list of names (`{"col": ["sum", "count"]}`). -/
inductive AggSpec where
  | one : String → AggSpec
  | many : List String → AggSpec
deriving DecidableEq, Repr

def specAggs : AggSpec → List String
  | .one s => [s]
  | .many l => l

/-- All (column, aggregation-name) pairs, in request order. -/
def aggPairs (aggs : List (String × AggSpec)) : List (String × String) :=
  aggs.flatMap (fun p => (specAggs p.2).map (fun a => (p.1, a)))

/-- The engine produces multi-part (MultiIndex) column names exactly when
some column's aggregations are given as a list. -/
def hasListSpec (aggs : List (String × AggSpec)) : Bool :=
  aggs.any (fun p => match p.2 with | .many _ => true | .one _ => false)

/-- Python `str.strip("_")` on the tail side. -/
def dropTrailingUnderscores : List Char → List Char
  | [] => []
  | c :: cs =>
      match dropTrailingUnderscores cs with
      | [] => if c = '_' then [] else [c]
      | res => c :: res

/-- Python `s.strip("_")`: remove leading and trailing underscores. -/
def stripUnderscores (s : String) : String :=
  String.mk (dropTrailingUnderscores (s.data.dropWhile (· = '_')))

/-- The flatten rule of `GoldLayer.aggregate` for a multi-part name
`(col, aggName)`: `"_".join(col).strip("_")`. -/
def flattenName (c a : String) : String := stripUnderscores (c ++ "_" ++ a)

def intVals (vs : List Value) : List Int :=
  vs.filterMap (fun v => match v with | Value.vInt n => some n | _ => none)

def allIntOrNull (vs : List Value) : Bool :=
  vs.all (fun v => match v with | Value.vInt _ => true | Value.vNull => true | _ => false)

/-- The integer-valued aggregation primitives of the engine (`sum`, `count`,
`min`, `max`, all skipping nulls as pandas does); float-valued aggregations
such as `mean` are outside the value domain and unsupported here. -/
def applyAgg (fn : String) (vs : List Value) : Option Value :=
  if fn = "count" then some (Value.vInt (vs.filter (· ≠ Value.vNull)).length)
  else if fn = "sum" then
    if allIntOrNull vs then some (Value.vInt ((intVals vs).foldl (· + ·) 0)) else none
  else if fn = "min" then
    if allIntOrNull vs then
      match intVals vs with
      | [] => some Value.vNull
      | x :: xs => some (Value.vInt (xs.foldl min x))
    else none
  else if fn = "max" then
    if allIntOrNull vs then
      match intVals vs with
      | [] => some Value.vNull
      | x :: xs => some (Value.vInt (xs.foldl max x))
    else none
  else none

def supportedAgg (fn : String) : Bool := ["sum", "count", "min", "max"].contains fn

/-- The ordering the engine sorts group keys by (ints before strings;
pandas cannot actually compare mixed key types, so that case is arbitrary). -/
def Value.leB : Value → Value → Bool
  | Value.vNull, _ => true
  | _, Value.vNull => false
  | Value.vInt a, Value.vInt b => a ≤ b
  | Value.vInt _, Value.vStr _ => true
  | Value.vStr _, Value.vInt _ => false
  | Value.vStr a, Value.vStr b => a ≤ b

def keyLe : List Value → List Value → Bool
  | [], _ => true
  | _ :: _, [] => false
  | a :: as, b :: bs => if a = b then keyLe as bs else a.leB b

def insertKey (k : List Value) : List (List Value) → List (List Value)
  | [] => [k]
  | x :: xs => if keyLe k x then k :: x :: xs else x :: insertKey k xs

def sortKeys (ks : List (List Value)) : List (List Value) := ks.foldr insertKey []

/-- The key tuple of one row under the group-by columns. -/
def rowKey (df : DataFrame) (gb : List String) (r : List Value) : List Value :=
  gb.map (fun g => match colIdx df g with
    | some i => r.getD i Value.vNull
    | none => Value.vNull)

/-- `result.groupby(group_by).agg(aggregations).reset_index()` followed by the
flatten of multi-part names: rows with a null key are dropped (groupby
`dropna=True`), groups appear in sorted key order (`sort=True`), and the
output columns are the group-by columns followed by one column per
requested (column, aggregation) pair.  `none` models the engine raising
(empty group list, absent column, unsupported aggregation name). -/
def aggCore (df : DataFrame) (gb : List String) (aggs : List (String × AggSpec)) :
    Option DataFrame :=
  if gb.isEmpty then none
  else if ¬ gb.all (fun g => df.cols.contains g) then none
  else if ¬ aggs.all (fun p => df.cols.contains p.1) then none
  else if ¬ (aggPairs aggs).all (fun p => supportedAgg p.2) then none
  else
    let rows1 := df.rows.filter (fun r => ¬ (rowKey df gb r).contains Value.vNull)
    let keys := sortKeys (dedupFirst (rows1.map (rowKey df gb)))
    let pairs := aggPairs aggs
    let outCols :=
      if hasListSpec aggs then gb ++ pairs.map (fun p => flattenName p.1 p.2)
      else gb ++ aggs.map Prod.fst
    let outRows := keys.map (fun k =>
      let grp := rows1.filter (fun r => rowKey df gb r = k)
      k ++ pairs.map (fun p =>
        (applyAgg p.2 (grp.map (fun r => r.getD ((colIdx df p.1).getD 0) Value.vNull))).getD Value.vNull))
    some { cols := outCols, rows := outRows }

/-- `GoldLayer.aggregate`: strip Silver metadata, group and aggregate,
flatten names, stamp `_gold_timestamp`, persist; on an engine failure
nothing is computed or written. -/
def aggregate (fs : FS) (basePath : String) (df : DataFrame) (name : String)
    (gb : List String) (aggs : List (String × AggSpec)) (now : String) :
    Option DataFrame × FS :=
  let result := dropCols df silverMeta
  match aggCore result gb aggs with
  | none => (none, fs)
  | some aggr =>
      let out := setColScalar aggr "_gold_timestamp" (Value.vStr now)
      (some out, fs.save (tablePath basePath name) out)

/-- `GoldLayer.create_dimension`: project key plus attributes (filtered to
present columns), drop duplicate rows, stamp metadata, persist to `dim_<name>`. -/
def create_dimension (fs : FS) (basePath : String) (df : DataFrame) (name : String)
    (keyColumn : String) (attributes : List String) (now : String) : DataFrame × FS :=
  let columns := (keyColumn :: attributes.filter (fun c => c ≠ keyColumn)).filter
    (fun c => df.cols.contains c)
  let proj := selectCols df columns
  let result := { proj with rows := dedupFirst proj.rows }
  let out := setColScalar result "_gold_timestamp" (Value.vStr now)
  (out, fs.save (basePath ++ "/dim_" ++ name ++ ".csv") out)

/-- `GoldLayer.create_fact`: strip Silver metadata, project keys plus measures
(filtered to present columns), no deduplication, stamp metadata, persist to
`fact_<name>`. -/
def create_fact (fs : FS) (basePath : String) (df : DataFrame) (name : String)
    (dimensionKeys measures : List String) (now : String) : DataFrame × FS :=
  let r1 := dropCols df silverMeta
  let columns := (dimensionKeys ++ measures).filter (fun c => r1.cols.contains c)
  let result := selectCols r1 columns
  let out := setColScalar result "_gold_timestamp" (Value.vStr now)
  (out, fs.save (basePath ++ "/fact_" ++ name ++ ".csv") out)

/-- Column labels of `pd.merge(left, right, on=onCols)`: left columns in order
(key columns keep their name, overlapping non-key columns get the `_x`
suffix), then the right non-key columns (overlaps suffixed `_y`). -/
def mergeCols (left right : DataFrame) (onCols : List String) : List String :=
  left.cols.map (fun c => if onCols.contains c then c
    else if right.cols.contains c then c ++ "_x" else c)
  ++ (right.cols.filter (fun c => ¬ onCols.contains c)).map
      (fun c => if left.cols.contains c then c ++ "_y" else c)

def rightRestCells (right : DataFrame) (onCols : List String) (rr : List Value) : List Value :=
  ((right.cols.zip rr).filter (fun cv => ¬ onCols.contains cv.1)).map Prod.snd

/-- Rows of `pd.merge` for the four supported join kinds; unmatched sides are
null-extended.  Row order follows order of first appearance (the engine
additionally sorts keys for outer joins; no property here depends on it). -/
def mergeRows (left right : DataFrame) (onCols : List String) (how : String) :
    Option (List (List Value)) :=
  let lkey := fun (lr : List Value) => rowKey left onCols lr
  let rkey := fun (rr : List Value) => rowKey right onCols rr
  let rightWidth := (right.cols.filter (fun c => ¬ onCols.contains c)).length
  let combine := fun (lr rr : List Value) => lr ++ rightRestCells right onCols rr
  let leftFromRight := fun (rr : List Value) =>
    left.cols.map (fun c => if onCols.contains c then
      (match colIdx right c with
       | some i => rr.getD i Value.vNull
       | none => Value.vNull)
      else Value.vNull)
  let leftJoin := left.rows.flatMap (fun lr =>
    let ms := right.rows.filter (fun rr => rkey rr = lkey lr)
    if ms.isEmpty then [lr ++ List.replicate rightWidth Value.vNull]
    else ms.map (combine lr))
  if how = "inner" then
    some (left.rows.flatMap (fun lr =>
      (right.rows.filter (fun rr => rkey rr = lkey lr)).map (combine lr)))
  else if how = "left" then some leftJoin
  else if how = "right" then
    some (right.rows.flatMap (fun rr =>
      let ms := left.rows.filter (fun lr => lkey lr = rkey rr)
      if ms.isEmpty then [leftFromRight rr ++ rightRestCells right onCols rr]
      else ms.map (fun lr => combine lr rr)))
  else if how = "outer" then
    some (leftJoin ++ (right.rows.filter (fun rr =>
      (left.rows.filter (fun lr => lkey lr = rkey rr)).isEmpty)).map
        (fun rr => leftFromRight rr ++ rightRestCells right onCols rr))
  else none

/-- `GoldLayer.join_tables`: merge, stamp metadata, persist; an engine
failure (absent key column, unsupported `how`) writes nothing. -/
def join_tables (fs : FS) (basePath : String) (left right : DataFrame)
    (name : String) (onCols : List String) (how : String) (now : String) :
    Option DataFrame × FS :=
  if ¬ (onCols.all (fun c => left.cols.contains c) ∧ onCols.all (fun c => right.cols.contains c)) then
    (none, fs)
  else
    match mergeRows left right onCols how with
    | none => (none, fs)
    | some rs =>
        let out := setColScalar ⟨mergeCols left right onCols, rs⟩ "_gold_timestamp" (Value.vStr now)
        (some out, fs.save (tablePath basePath name) out)

/-- The metric loop of `GoldLayer.calculate_metrics`: each function is
evaluated against the table as already extended by the earlier metrics. -/
def calcCore (df : DataFrame) (metrics : List (String × (DataFrame → List Value))) :
    DataFrame :=
  metrics.foldl (fun acc m => setColList acc m.1 (m.2 acc)) df

/-- `GoldLayer.calculate_metrics`: copy, run the metric loop, stamp
`_gold_timestamp`, persist. -/
def calculate_metrics (fs : FS) (basePath : String) (df : DataFrame) (name : String)
    (metrics : List (String × (DataFrame → List Value))) (now : String) : DataFrame × FS :=
  let out := setColScalar (calcCore df metrics) "_gold_timestamp" (Value.vStr now)
  (out, fs.save (tablePath basePath name) out)

/-- The column/dtype view of a table that `validate_schema` inspects:
`df.columns` and `df.dtypes` (dtype names as pandas renders them). -/
structure PdSchema where
  cols : List String
  dtypes : List (String × String)
deriving DecidableEq, Repr

/-- The dtype names `pd.api.types.is_numeric_dtype` accepts (numpy and
nullable numeric dtypes; `bool` is numeric to pandas as well). -/
def numericDtypeNames : List String :=
  ["int8", "int16", "int32", "int64", "uint8", "uint16", "uint32", "uint64",
   "float16", "float32", "float64",
   "Int8", "Int16", "Int32", "Int64", "UInt8", "UInt16", "UInt32", "UInt64",
   "Float32", "Float64", "bool", "boolean"]

def is_numeric_dtype (d : String) : Bool := numericDtypeNames.contains d

/-- The observed dtype of a column (pandas reports `object` by default). -/
def obsDtype (df : PdSchema) (c : String) : String := (df.dtypes.lookup c).getD "object"

/-- The `column_types` loop of `validate_schema`: raise at the first listed
column that is present with a dtype unequal to the expected one, unless the
expected type is exactly `"float64"` or `"int64"` and the observed dtype is
numeric. -/
def validateTypes (df : PdSchema) : List (String × String) → Except String Bool
  | [] => .ok true
  | (col, expected) :: rest =>
      if df.cols.contains col ∧ ¬ obsDtype df col = expected then
        if (expected = "float64" ∨ expected = "int64") ∧ is_numeric_dtype (obsDtype df col) then
          validateTypes df rest
        else .error ("Column " ++ col ++ " has type " ++ obsDtype df col ++ ", expected " ++ expected)
      else validateTypes df rest

/-- `validate_schema` (`data_utils.py`): raise on a missing required column,
then run the dtype checks; return `true` otherwise. -/
def validate_schema (df : PdSchema) (required : List String)
    (columnTypes : List (String × String)) : Except String Bool :=
  if required.any (fun c => ¬ df.cols.contains c) then
    .error "Missing required columns"
  else validateTypes df columnTypes

/-- A heap of table objects, for the aliasing behaviour of the Python code:
a DataFrame variable is a reference into the heap, `df.copy()` allocates,
`df[c] = v` mutates in place, and engine calls such as `drop`,
`drop_duplicates`, `merge`, `groupby().agg()` return fresh objects. -/
abbrev Heap := List DataFrame

def hGet (h : Heap) (r : Nat) : DataFrame := h.getD r default

def hSet (h : Heap) (r : Nat) (df : DataFrame) : Heap := h.set r df

def hAlloc (h : Heap) (df : DataFrame) : Nat × Heap := (h.length, h ++ [df])

/-- Heap form of `BronzeLayer.ingest_dataframe`: `df.copy()` allocates, then
`_add_metadata` mutates the copy in place. -/
def ingest_dataframeH (h : Heap) (r : Nat) (s now : String) : Nat × Heap :=
  let a := hAlloc h (hGet h r)
  let h2 := hSet a.2 a.1 (setColScalar (hGet a.2 a.1) "_ingestion_timestamp" (Value.vStr now))
  let h3 := hSet h2 a.1 (setColScalar (hGet h2 a.1) "_source_system" (Value.vStr s))
  (a.1, h3)

/-- Heap form of `SilverLayer.transform`: `result = df.copy()` allocates; the
engine calls and transformation functions rebind the local to fresh objects
(tracked as values); `_add_metadata` then mutates the final object in place. -/
def transformH (h : Heap) (r : Nat) (ts : List (DataFrame → DataFrame))
    (dedup dropN : Bool) (nullCols : Option (List String)) (now : String) : Nat × Heap :=
  let a := hAlloc h (hGet h r)
  let v1 := silverCore (hGet a.2 a.1) ts
  let v2 := if dedup then { v1 with rows := dedupFirst v1.rows } else v1
  let v3 := if dropN then dropnaDf v2 nullCols else v2
  let b := hAlloc a.2 v3
  let h4 := hSet b.2 b.1 (setColScalar (hGet b.2 b.1) "_silver_timestamp" (Value.vStr now))
  (b.1, h4)

/-- Heap form of `SilverLayer.clean_column_names`: copy, then
`result.columns = [...]` mutates the copy. -/
def clean_column_namesH (h : Heap) (r : Nat) : Nat × Heap :=
  let a := hAlloc h (hGet h r)
  let h2 := hSet a.2 a.1 (clean_column_names (hGet a.2 a.1))
  (a.1, h2)

/-- One in-place whole-column update `result[col] = f(result[col])`. -/
def mapColInPlace (df : DataFrame) (c : String) (f : Value → Value) : DataFrame :=
  match colIdx df c with
  | some i => { df with rows := df.rows.map (fun r => r.set i (f (r.getD i Value.vNull))) }
  | none => df

/-- Heap form of `SilverLayer.standardize_dates`: copy, then per listed
present column two in-place updates on the copy. -/
def standardize_datesH (toDt strf : Value → Value) (h : Heap) (r : Nat)
    (dateColumns : List String) : Nat × Heap :=
  let a := hAlloc h (hGet h r)
  let h2 := dateColumns.foldl (fun hh col =>
    if (hGet hh a.1).cols.contains col then
      let hh2 := hSet hh a.1 (mapColInPlace (hGet hh a.1) col toDt)
      hSet hh2 a.1 (mapColInPlace (hGet hh2 a.1) col strf)
    else hh) a.2
  (a.1, h2)

/-- Heap form of `SilverLayer.cast_types`: copy, then per mapped present
column one in-place coercion on the copy (unknown targets are skipped). -/
def cast_typesH (toIntF toFloatF toStrF toDtF : Value → Value) (h : Heap) (r : Nat)
    (typeMapping : List (String × String)) : Nat × Heap :=
  let a := hAlloc h (hGet h r)
  let h2 := typeMapping.foldl (fun hh cd =>
    if (hGet hh a.1).cols.contains cd.1 then
      if cd.2 = "int" then hSet hh a.1 (mapColInPlace (hGet hh a.1) cd.1 toIntF)
      else if cd.2 = "float" then hSet hh a.1 (mapColInPlace (hGet hh a.1) cd.1 toFloatF)
      else if cd.2 = "str" then hSet hh a.1 (mapColInPlace (hGet hh a.1) cd.1 toStrF)
      else if cd.2 = "datetime" then hSet hh a.1 (mapColInPlace (hGet hh a.1) cd.1 toDtF)
      else hh
    else hh) a.2
  (a.1, h2)

/-- Heap form of `GoldLayer.aggregate`: `df.copy()` allocates; `drop` and
`groupby().agg()` return fresh objects; on success `_add_metadata` mutates
the fresh aggregation result; on an engine error the raise propagates. -/
def aggregateH (h : Heap) (r : Nat) (gb : List String)
    (aggs : List (String × AggSpec)) (now : String) : Option Nat × Heap :=
  let a := hAlloc h (hGet h r)
  let v1 := dropCols (hGet a.2 a.1) silverMeta
  match aggCore v1 gb aggs with
  | none => (none, a.2)
  | some aggv =>
      let b := hAlloc a.2 aggv
      let h3 := hSet b.2 b.1 (setColScalar (hGet b.2 b.1) "_gold_timestamp" (Value.vStr now))
      (some b.1, h3)

/-- Heap form of `GoldLayer.create_dimension`: `df[columns].drop_duplicates()`
returns a fresh object which `_add_metadata` then mutates. -/
def create_dimensionH (h : Heap) (r : Nat) (keyColumn : String)
    (attributes : List String) (now : String) : Nat × Heap :=
  let df := hGet h r
  let columns := (keyColumn :: attributes.filter (fun c => c ≠ keyColumn)).filter
    (fun c => df.cols.contains c)
  let proj := selectCols df columns
  let a := hAlloc h { proj with rows := dedupFirst proj.rows }
  let h2 := hSet a.2 a.1 (setColScalar (hGet a.2 a.1) "_gold_timestamp" (Value.vStr now))
  (a.1, h2)

/-- Heap form of `GoldLayer.create_fact`: `df.drop(...)` and
`result[columns].copy()` return fresh objects; metadata mutates the copy. -/
def create_factH (h : Heap) (r : Nat) (dimensionKeys measures : List String)
    (now : String) : Nat × Heap :=
  let r1 := dropCols (hGet h r) silverMeta
  let columns := (dimensionKeys ++ measures).filter (fun c => r1.cols.contains c)
  let a := hAlloc h (selectCols r1 columns)
  let h2 := hSet a.2 a.1 (setColScalar (hGet a.2 a.1) "_gold_timestamp" (Value.vStr now))
  (a.1, h2)

/-- Heap form of `GoldLayer.join_tables`: `pd.merge` returns a fresh object;
metadata mutates it; an engine error propagates before any write. -/
def join_tablesH (h : Heap) (r1 r2 : Nat) (onCols : List String) (how : String)
    (now : String) : Option Nat × Heap :=
  let left := hGet h r1
  let right := hGet h r2
  if ¬ (onCols.all (fun c => left.cols.contains c) ∧ onCols.all (fun c => right.cols.contains c)) then
    (none, h)
  else
    match mergeRows left right onCols how with
    | none => (none, h)
    | some rs =>
        let a := hAlloc h ⟨mergeCols left right onCols, rs⟩
        let h2 := hSet a.2 a.1 (setColScalar (hGet a.2 a.1) "_gold_timestamp" (Value.vStr now))
        (a.1, h2)

/-- Heap form of `GoldLayer.calculate_metrics`: `df.copy()` allocates, then
each `result[name] = fn(result)` mutates the copy in place, in order. -/
def calculate_metricsH (h : Heap) (r : Nat)
    (metrics : List (String × (DataFrame → List Value))) (now : String) : Nat × Heap :=
  let a := hAlloc h (hGet h r)
  let h2 := metrics.foldl (fun hh m =>
    hSet hh a.1 (setColList (hGet hh a.1) m.1 (m.2 (hGet hh a.1)))) a.2
  let h3 := hSet h2 a.1 (setColScalar (hGet h2 a.1) "_gold_timestamp" (Value.vStr now))
  (a.1, h3)

/-! ## Helper lemmas -/

theorem findIdx_label_none_go {name : String} :
    ∀ (l : List String) (i : Nat), name ∉ l →
      List.findIdx? (fun c => c = name) l i = none := by
  intro l
  induction l with
  | nil => intro i h; rfl
  | cons a t ih =>
      intro i h
      rw [List.findIdx?_cons]
      have ha : ¬ a = name := fun e => h (e ▸ List.mem_cons_self a t)
      simp only [ha, decide_False, Bool.false_eq_true, if_false]
      exact ih _ (fun hm => h (List.mem_cons_of_mem a hm))

theorem findIdx_label_none {l : List String} {name : String} (h : name ∉ l) :
    l.findIdx? (fun c => c = name) = none :=
  findIdx_label_none_go l 0 h

theorem findIdx_label_isSome_go {name : String} :
    ∀ (l : List String) (i : Nat), name ∈ l →
      (List.findIdx? (fun c => c = name) l i).isSome := by
  intro l
  induction l with
  | nil => intro i h; cases h
  | cons a t ih =>
      intro i h
      rw [List.findIdx?_cons]
      by_cases ha : a = name
      · simp [ha]
      · have h2 : name ∈ t := by
          rcases List.mem_cons.mp h with h1 | h2
          · exact absurd h1.symm ha
          · exact h2
        simp only [ha, decide_False, Bool.false_eq_true, if_false]
        exact ih _ h2

theorem findIdx_label_isSome {l : List String} {name : String} (h : name ∈ l) :
    (l.findIdx? (fun c => c = name)).isSome :=
  findIdx_label_isSome_go l 0 h

theorem setColScalar_not_mem {df : DataFrame} {name : String} (h : name ∉ df.cols)
    (v : Value) :
    setColScalar df name v =
      ⟨df.cols ++ [name], df.rows.map (fun r => r ++ [v])⟩ := by
  unfold setColScalar
  rw [findIdx_label_none h]

theorem setColScalar_cols_of_mem {df : DataFrame} {name : String} (h : name ∈ df.cols)
    (v : Value) : (setColScalar df name v).cols = df.cols := by
  unfold setColScalar
  cases hf : df.cols.findIdx? (fun c => c = name) with
  | some i => rfl
  | none =>
      have := findIdx_label_isSome h
      rw [hf] at this
      exact absurd this (by simp)

theorem setColScalar_rows_length (df : DataFrame) (name : String) (v : Value) :
    (setColScalar df name v).rows.length = df.rows.length := by
  unfold setColScalar
  cases df.cols.findIdx? (fun c => c = name) <;> simp

/-! ## Claim C1 -/

/-- C1 (as stated) is false: on an input table that already contains a
column named `_source_system`, Bronze ingestion overwrites that column in
place instead of appending a second copy, so the output is not the input
with the two metadata columns appended at the end. -/
theorem C1_counterexample :
    ¬ (((ingest_dataframe [] "data/raw" ⟨["_source_system"], [[Value.vStr "x"]]⟩
          "t" "sys" "T0").1).cols
        = ["_source_system"] ++ ["_ingestion_timestamp", "_source_system"]) := by
  decide

/-- C1 (amended): for every input table whose columns do not already include
`_ingestion_timestamp` or `_source_system`, Bronze ingestion (`ingest_dataframe`,
and `ingest_data` on a source file holding the table) returns and persists the
table with exactly those two columns appended at the end in that order,
`_source_system` holding the caller's source-system string, every original
column keeping its position and contents, and the row count unchanged. -/
theorem C1_bronze_ingestion_appends_metadata
    (fs : FS) (basePath : String) (df : DataFrame) (name s now srcPath : String)
    (hi : "_ingestion_timestamp" ∉ df.cols) (hs : "_source_system" ∉ df.cols) :
    ((ingest_dataframe fs basePath df name s now).1).cols
        = df.cols ++ ["_ingestion_timestamp", "_source_system"] ∧
    ((ingest_dataframe fs basePath df name s now).1).rows
        = df.rows.map (fun r => r ++ [Value.vStr now, Value.vStr s]) ∧
    ((ingest_dataframe fs basePath df name s now).1).rows.length = df.rows.length ∧
    ((ingest_dataframe fs basePath df name s now).2).lookup (tablePath basePath name)
        = some ((ingest_dataframe fs basePath df name s now).1) ∧
    (fs.lookup srcPath = some df →
      ingest_data fs basePath srcPath name s now =
        (Except.ok ((ingest_dataframe fs basePath df name s now).1),
          (ingest_dataframe fs basePath df name s now).2)) := by
  have h1 := setColScalar_not_mem hi (Value.vStr now)
  have hs2 : "_source_system" ∉ (setColScalar df "_ingestion_timestamp" (Value.vStr now)).cols := by
    rw [h1]
    intro hmem
    rcases List.mem_append.mp hmem with hA | hB
    · exact hs hA
    · simp at hB
  have h2 := setColScalar_not_mem hs2 (Value.vStr s)
  have hout : (ingest_dataframe fs basePath df name s now).1 =
      ⟨df.cols ++ ["_ingestion_timestamp", "_source_system"],
        df.rows.map (fun r => r ++ [Value.vStr now, Value.vStr s])⟩ := by
    show bronzeAddMeta df now s = _
    unfold bronzeAddMeta
    rw [h2, h1]
    simp [List.map_map, Function.comp, List.append_assoc]
  refine ⟨by rw [hout], by rw [hout], ?_, ?_, ?_⟩
  · rw [hout]; simp
  · simp [ingest_dataframe, FS.save, List.lookup]
  · intro hload
    show ingest_data fs basePath srcPath name s now = _
    unfold ingest_data load_csv
    rw [hload]
    rfl

/-- Witness for C1 at a concrete input. -/
theorem C1_witness :
    ("_ingestion_timestamp" ∉ (⟨["a"], [[Value.vInt 1]]⟩ : DataFrame).cols) ∧
    ((ingest_dataframe [] "b" ⟨["a"], [[Value.vInt 1]]⟩ "t" "s" "T").1).cols
      = ["a"] ++ ["_ingestion_timestamp", "_source_system"] := by
  refine ⟨by decide, ?_⟩
  exact (C1_bronze_ingestion_appends_metadata [] "b" ⟨["a"], [[Value.vInt 1]]⟩
    "t" "s" "T" "p" (by decide) (by decide)).1

theorem mem_dedupFirstAux {α : Type} [DecidableEq α] :
    ∀ (l seen : List α) (x : α), x ∈ dedupFirstAux seen l ↔ x ∈ l ∧ x ∉ seen := by
  intro l
  induction l with
  | nil => intro seen x; simp [dedupFirstAux]
  | cons a t ih =>
      intro seen x
      unfold dedupFirstAux
      by_cases ha : a ∈ seen
      · rw [if_pos ha, ih]
        constructor
        · rintro ⟨hx, hns⟩
          exact ⟨List.mem_cons_of_mem a hx, hns⟩
        · rintro ⟨hx, hns⟩
          rcases List.mem_cons.mp hx with rfl | hx2
          · exact absurd ha hns
          · exact ⟨hx2, hns⟩
      · rw [if_neg ha]
        constructor
        · intro hx
          rcases List.mem_cons.mp hx with rfl | hx2
          · exact ⟨List.mem_cons_self _ _, ha⟩
          · rcases (ih (a :: seen) x).mp hx2 with ⟨h1, h2⟩
            exact ⟨List.mem_cons_of_mem a h1,
              fun hs => h2 (List.mem_cons_of_mem a hs)⟩
        · rintro ⟨hx, hns⟩
          rcases List.mem_cons.mp hx with rfl | hx2
          · exact List.mem_cons_self _ _
          · by_cases hxa : x = a
            · exact hxa ▸ List.mem_cons_self _ _
            · exact List.mem_cons_of_mem a ((ih (a :: seen) x).mpr
                ⟨hx2, fun hs => (List.mem_cons.mp hs).elim hxa hns⟩)

theorem nodup_dedupFirstAux {α : Type} [DecidableEq α] :
    ∀ (l seen : List α), (dedupFirstAux seen l).Nodup := by
  intro l
  induction l with
  | nil => intro seen; simp [dedupFirstAux]
  | cons a t ih =>
      intro seen
      unfold dedupFirstAux
      by_cases ha : a ∈ seen
      · rw [if_pos ha]; exact ih seen
      · rw [if_neg ha]
        refine List.nodup_cons.mpr ⟨?_, ih (a :: seen)⟩
        intro hmem
        exact ((mem_dedupFirstAux t (a :: seen) a).mp hmem).2 (List.mem_cons_self _ _)

theorem dedupFirstAux_eq_self {α : Type} [DecidableEq α] :
    ∀ (l seen : List α), l.Nodup → (∀ x ∈ l, x ∉ seen) → dedupFirstAux seen l = l := by
  intro l
  induction l with
  | nil => intro seen _ _; rfl
  | cons a t ih =>
      intro seen hnd hdisj
      unfold dedupFirstAux
      rw [if_neg (hdisj a (List.mem_cons_self _ _))]
      congr 1
      refine ih (a :: seen) (List.nodup_cons.mp hnd).2 ?_
      intro x hx hmem
      rcases List.mem_cons.mp hmem with rfl | hseen
      · exact (List.nodup_cons.mp hnd).1 hx
      · exact hdisj x (List.mem_cons_of_mem a hx) hseen

theorem dedupFirstAux_congr {α : Type} [DecidableEq α] :
    ∀ (l s1 s2 : List α), (∀ x, x ∈ s1 ↔ x ∈ s2) → dedupFirstAux s1 l = dedupFirstAux s2 l := by
  intro l
  induction l with
  | nil => intro s1 s2 _; rfl
  | cons a t ih =>
      intro s1 s2 hs
      unfold dedupFirstAux
      by_cases ha : a ∈ s1
      · rw [if_pos ha, if_pos ((hs a).mp ha)]
        exact ih s1 s2 hs
      · rw [if_neg ha, if_neg (fun h2 => ha ((hs a).mpr h2))]
        congr 1
        refine ih (a :: s1) (a :: s2) ?_
        intro x
        simp only [List.mem_cons]
        exact or_congr Iff.rfl (hs x)

theorem dedupFirstAux_map {α β : Type} [DecidableEq α] [DecidableEq β]
    (f : α → β) (hf : Function.Injective f) :
    ∀ (l seen : List α), dedupFirstAux (seen.map f) (l.map f) = (dedupFirstAux seen l).map f := by
  intro l
  induction l with
  | nil => intro seen; rfl
  | cons a t ih =>
      intro seen
      show (if f a ∈ List.map f seen then dedupFirstAux (List.map f seen) (List.map f t)
            else f a :: dedupFirstAux (f a :: List.map f seen) (List.map f t))
          = List.map f (if a ∈ seen then dedupFirstAux seen t else a :: dedupFirstAux (a :: seen) t)
      by_cases ha : a ∈ seen
      · rw [if_pos ha, if_pos (List.mem_map_of_mem f ha)]
        exact ih seen
      · rw [if_neg ha, if_neg (fun h => ha ((List.mem_map_of_injective hf).mp h)), List.map_cons]
        congr 1
        have h2 := ih (a :: seen)
        rw [List.map_cons] at h2
        exact h2

theorem dedupFirst_toFinset {α : Type} [DecidableEq α] (l : List α) :
    (dedupFirst l).toFinset = l.toFinset := by
  ext x
  simp only [List.mem_toFinset, dedupFirst]
  rw [mem_dedupFirstAux]
  simp

theorem dedupFirst_length_card {α : Type} [DecidableEq α] (l : List α) :
    (dedupFirst l).length = l.toFinset.card := by
  calc (dedupFirst l).length = (dedupFirst l).toFinset.card :=
        (List.toFinset_card_of_nodup (by exact nodup_dedupFirstAux l [])).symm
    _ = l.toFinset.card := by rw [dedupFirst_toFinset]

theorem dedupFirst_eq_stable_foldl :
    ∀ (l acc : List (List Value)),
      l.foldl (fun acc x => if x ∈ acc then acc else acc ++ [x]) acc
        = acc ++ dedupFirstAux acc l := by
  intro l
  induction l with
  | nil => intro acc; simp [dedupFirstAux]
  | cons a t ih =>
      intro acc
      rw [List.foldl_cons]
      unfold dedupFirstAux
      by_cases ha : a ∈ acc
      · rw [if_pos ha, if_pos ha, ih]
      · rw [if_neg ha, if_neg ha, ih (acc ++ [a]),
          List.append_assoc, List.singleton_append]
        congr 2
        refine dedupFirstAux_congr t (acc ++ [a]) (a :: acc) ?_
        intro x
        simp only [List.mem_append, List.mem_singleton, List.mem_cons,
          List.not_mem_nil, or_false]
        exact or_comm

theorem append_singleton_injective {α : Type} (v : α) :
    Function.Injective (fun (r : List α) => r ++ [v]) := by
  intro a b h
  have := congrArg List.dropLast h
  simpa using this

theorem dropCols_eq_self {df : DataFrame} (hWF : df.WF) {names : List String}
    (h : ∀ c ∈ df.cols, ¬ names.contains c) : dropCols df names = df := by
  have hcols : df.cols.filter (fun c => ¬ names.contains c) = df.cols := by
    rw [List.filter_eq_self]
    intro c hc
    simpa using h c hc
  have hrow : ∀ r ∈ df.rows,
      ((df.cols.zip r).filter (fun cv => ¬ names.contains cv.1)).map Prod.snd = r := by
    intro r hr
    have hfil : (df.cols.zip r).filter (fun cv => ¬ names.contains cv.1) = df.cols.zip r := by
      rw [List.filter_eq_self]
      intro cv hcv
      simpa using h cv.1 (List.of_mem_zip hcv).1
    rw [hfil, List.map_snd_zip]
    exact le_of_eq (hWF r hr)
  have hrows : df.rows.map (fun r =>
      ((df.cols.zip r).filter (fun cv => ¬ names.contains cv.1)).map Prod.snd) = df.rows := by
    calc df.rows.map (fun r =>
          ((df.cols.zip r).filter (fun cv => ¬ names.contains cv.1)).map Prod.snd)
        = df.rows.map id := List.map_congr_left hrow
      _ = df.rows := List.map_id df.rows
  show DataFrame.mk _ _ = df
  rw [hcols, hrows]

/-! ## Claim C2 -/

/-- C2 (as stated) is false: on a table with duplicate rows that also has a
`_silver_timestamp` column with distinct values, the first transform
deduplicates and then overwrites that column with one constant timestamp,
creating duplicates in its own output; re-running transform with
`deduplicate=true` then shrinks the row count (2 rows become 1), so the
second call is not idempotent on the row count. -/
theorem C2_counterexample :
    ¬ ((⟨["x", "_silver_timestamp"],
        [[Value.vInt 1, Value.vStr "a"], [Value.vInt 1, Value.vStr "b"],
         [Value.vInt 1, Value.vStr "a"]]⟩ : DataFrame).rows.Nodup) ∧
    ((transform [] "p"
        (transform [] "p"
          ⟨["x", "_silver_timestamp"],
            [[Value.vInt 1, Value.vStr "a"], [Value.vInt 1, Value.vStr "b"],
             [Value.vInt 1, Value.vStr "a"]]⟩ "n" [] true false none "T1").1
        "n" [] true false none "T2").1).rows.length
      ≠ ((transform [] "p"
          ⟨["x", "_silver_timestamp"],
            [[Value.vInt 1, Value.vStr "a"], [Value.vInt 1, Value.vStr "b"],
             [Value.vInt 1, Value.vStr "a"]]⟩ "n" [] true false none "T1").1).rows.length := by
  constructor
  · decide
  · decide

/-- C2 (amended): for every table, Silver `transform` with `deduplicate=true`
(and `drop_nulls` false) produces exactly as many rows as the
post-transformation table has distinct rows; the rows the engine keeps are
the first occurrences in original order (the stable-distinct fold); and
provided the post-transformation table is rectangular and does not contain
any of the metadata columns `_silver_timestamp`, `_ingestion_timestamp`,
`_source_system`, re-running `transform` on the output (deduplicate=true, no
transformations) leaves the row count unchanged. -/
theorem C2_silver_dedup_distinct_and_idempotent
    (fs fs2 : FS) (basePath : String) (df : DataFrame) (name name2 : String)
    (ts : List (DataFrame → DataFrame)) (now now2 : String) :
    ((transform fs basePath df name ts true false none now).1).rows.length
        = (silverCore df ts).rows.toFinset.card ∧
    dedupFirst (silverCore df ts).rows
        = (silverCore df ts).rows.foldl
            (fun acc x => if x ∈ acc then acc else acc ++ [x]) [] ∧
    ((silverCore df ts).WF →
      "_silver_timestamp" ∉ (silverCore df ts).cols →
      "_ingestion_timestamp" ∉ (silverCore df ts).cols →
      "_source_system" ∉ (silverCore df ts).cols →
      ((transform fs2 basePath (transform fs basePath df name ts true false none now).1
          name2 [] true false none now2).1).rows.length
        = ((transform fs basePath df name ts true false none now).1).rows.length) := by
  have hout1 : (transform fs basePath df name ts true false none now).1
      = setColScalar ⟨(silverCore df ts).cols, dedupFirst (silverCore df ts).rows⟩
          "_silver_timestamp" (Value.vStr now) := rfl
  refine ⟨?_, ?_, ?_⟩
  · rw [hout1, setColScalar_rows_length]
    exact dedupFirst_length_card (silverCore df ts).rows
  · have h := dedupFirst_eq_stable_foldl (silverCore df ts).rows []
    rw [List.nil_append] at h
    exact h.symm
  · intro hWF hsm him hss
    set pt := silverCore df ts with hpt
    have hset := @setColScalar_not_mem ⟨pt.cols, dedupFirst pt.rows⟩
      "_silver_timestamp" hsm (Value.vStr now)
    have ho1 : (transform fs basePath df name ts true false none now).1
        = ⟨pt.cols ++ ["_silver_timestamp"],
            (dedupFirst pt.rows).map (fun r => r ++ [Value.vStr now])⟩ := by
      rw [hout1, hset]
    set o1 := (transform fs basePath df name ts true false none now).1 with ho1def
    have hWFo1 : o1.WF := by
      rw [ho1]
      intro r hr
      simp only [List.mem_map] at hr
      obtain ⟨r0, hr0, rfl⟩ := hr
      have hr0mem : r0 ∈ pt.rows :=
        ((mem_dedupFirstAux pt.rows [] r0).mp hr0).1
      simp [hWF r0 hr0mem]
    have hnobronze : ∀ c ∈ o1.cols, ¬ bronzeMeta.contains c := by
      intro c hc hmem
      have hcm : c ∈ bronzeMeta := List.mem_of_elem_eq_true hmem
      rw [ho1] at hc
      simp only [List.mem_append, List.mem_singleton] at hc
      simp only [bronzeMeta, List.mem_cons, List.not_mem_nil, or_false] at hcm
      rcases hc with hc1 | rfl
      · rcases hcm with rfl | rfl
        · exact him hc1
        · exact hss hc1
      · rcases hcm with h1 | h1 <;> exact absurd h1 (by decide)
    have hcore2 : silverCore o1 [] = o1 := by
      show (dropCols o1 bronzeMeta) = o1
      exact dropCols_eq_self hWFo1 hnobronze
    have hnodup : o1.rows.Nodup := by
      rw [ho1]
      exact List.Nodup.map (append_singleton_injective (Value.vStr now))
        (nodup_dedupFirstAux pt.rows [])
    have hdedup2 : dedupFirst o1.rows = o1.rows :=
      dedupFirstAux_eq_self o1.rows [] hnodup (by intro x _ hx; cases hx)
    have hout2 : (transform fs2 basePath o1 name2 [] true false none now2).1
        = setColScalar ⟨(silverCore o1 []).cols, dedupFirst (silverCore o1 []).rows⟩
            "_silver_timestamp" (Value.vStr now2) := rfl
    rw [hout2, setColScalar_rows_length, hcore2, hdedup2]

/-- Witness for C2 at a concrete input with duplicate rows. -/
theorem C2_witness :
    ((transform [] "p" ⟨["x"], [[Value.vInt 1], [Value.vInt 1], [Value.vInt 2]]⟩
        "n" [] true false none "T1").1).rows.length
      = (silverCore ⟨["x"], [[Value.vInt 1], [Value.vInt 1], [Value.vInt 2]]⟩ []).rows.toFinset.card ∧
    ((transform [] "p"
        (transform [] "p" ⟨["x"], [[Value.vInt 1], [Value.vInt 1], [Value.vInt 2]]⟩
          "n" [] true false none "T1").1 "n2" [] true false none "T2").1).rows.length
      = ((transform [] "p" ⟨["x"], [[Value.vInt 1], [Value.vInt 1], [Value.vInt 2]]⟩
          "n" [] true false none "T1").1).rows.length := by
  refine ⟨(C2_silver_dedup_distinct_and_idempotent [] [] "p"
      ⟨["x"], [[Value.vInt 1], [Value.vInt 1], [Value.vInt 2]]⟩ "n" "n2" [] "T1" "T2").1,
    (C2_silver_dedup_distinct_and_idempotent [] [] "p"
      ⟨["x"], [[Value.vInt 1], [Value.vInt 1], [Value.vInt 2]]⟩ "n" "n2" [] "T1" "T2").2.2
      (by decide) (by decide) (by decide) (by decide)⟩

/-! ## Claim C3 -/

/-- C3 (as stated) is false: with two aggregations requested overall, each
given as a single string (`{"q": "sum", "p": "max"}`), the engine produces no
multi-part names and the measure columns keep their original names `q`, `p`;
the claim would require `q_sum`, `p_max` since more than one aggregation is
requested overall for the grouping. -/
theorem C3_counterexample :
    (aggPairs [("q", AggSpec.one "sum"), ("p", AggSpec.one "max")]).length = 2 ∧
    Option.map DataFrame.cols
      ((aggregate [] "gld"
        ⟨["g", "q", "p"], [[Value.vStr "A", Value.vInt 1, Value.vInt 2]]⟩
        "t" ["g"] [("q", AggSpec.one "sum"), ("p", AggSpec.one "max")] "T").1)
      = some ["g", "q", "p", "_gold_timestamp"] ∧
    "q_sum" ∉ ["g", "q", "p", "_gold_timestamp"] := by
  refine ⟨rfl, by decide, by decide⟩

/-- C3 (amended): in a Gold `aggregate` call, the group-by columns keep their
names, and each measure column is named by joining the original column name
and the aggregation name with `_` (stripping outer underscores) exactly when
some column's aggregations are requested in list form — the engine only
builds multi-part names then; when every aggregation is a single string, the
measure columns keep the original column names regardless of how many
aggregations are requested overall. -/
theorem C3_aggregate_column_naming
    (df : DataFrame) (gb : List String) (aggs : List (String × AggSpec))
    (out : DataFrame) (h : aggCore df gb aggs = some out) :
    (hasListSpec aggs = false → out.cols = gb ++ aggs.map Prod.fst) ∧
    (hasListSpec aggs = true →
      out.cols = gb ++ (aggPairs aggs).map (fun p => flattenName p.1 p.2)) := by
  unfold aggCore at h
  split at h
  · cases h
  split at h
  · cases h
  split at h
  · cases h
  split at h
  · cases h
  have h2 := Option.some.inj h
  constructor
  · intro hl
    rw [← h2]
    simp only [hl, Bool.false_eq_true, if_false]
  · intro hl
    rw [← h2]
    simp only [hl, if_true]

/-- Witness for C3 at a concrete list-form aggregation request. -/
theorem C3_witness :
    aggCore ⟨["g", "q"], [[Value.vStr "A", Value.vInt 1]]⟩ ["g"]
        [("q", AggSpec.many ["sum", "count"])]
      = some ⟨["g", "q_sum", "q_count"], [[Value.vStr "A", Value.vInt 1, Value.vInt 1]]⟩ ∧
    (⟨["g", "q_sum", "q_count"],
        [[Value.vStr "A", Value.vInt 1, Value.vInt 1]]⟩ : DataFrame).cols
      = ["g"] ++ (aggPairs [("q", AggSpec.many ["sum", "count"])]).map
          (fun p => flattenName p.1 p.2) := by
  refine ⟨by decide, ?_⟩
  exact (C3_aggregate_column_naming ⟨["g", "q"], [[Value.vStr "A", Value.vInt 1]]⟩ ["g"]
    [("q", AggSpec.many ["sum", "count"])]
    ⟨["g", "q_sum", "q_count"], [[Value.vStr "A", Value.vInt 1, Value.vInt 1]]⟩
    (by decide)).2 rfl

/-! ## Claim C4 -/

/-- C4: `calculate_metrics` evaluates the metrics strictly in the given
order: running a metric list decomposes sequentially, and the last metric's
function receives the table already extended with all earlier metrics'
columns, its result being added as a new column under the metric name; on
quantity=[10,20,30], price=[5,10,15] the metric revenue = quantity * price
yields the column [50,200,450] in the persisted output. -/
theorem C4_calculate_metrics_sequential :
    (∀ (df : DataFrame) (ms1 ms2 : List (String × (DataFrame → List Value))),
      calcCore df (ms1 ++ ms2) = calcCore (calcCore df ms1) ms2) ∧
    (∀ (df : DataFrame) (ms : List (String × (DataFrame → List Value)))
        (n : String) (f : DataFrame → List Value),
      calcCore df (ms ++ [(n, f)])
        = setColList (calcCore df ms) n (f (calcCore df ms))) ∧
    colVals ((calculate_metrics [] "gld"
        ⟨["quantity", "price"],
          [[Value.vInt 10, Value.vInt 5], [Value.vInt 20, Value.vInt 10],
           [Value.vInt 30, Value.vInt 15]]⟩ "t"
        [("revenue", fun t => List.zipWith
            (fun a b => match a, b with
              | Value.vInt x, Value.vInt y => Value.vInt (x * y)
              | _, _ => Value.vNull)
            (colVals t "quantity") (colVals t "price"))] "T").1) "revenue"
      = [Value.vInt 50, Value.vInt 200, Value.vInt 450] := by
  refine ⟨?_, ?_, ?_⟩
  · intro df ms1 ms2
    unfold calcCore
    rw [List.foldl_append]
  · intro df ms n f
    unfold calcCore
    rw [List.foldl_append]
    rfl
  · rfl

/-! ## Claim C5 -/

theorem head_dropWhile_underscore :
    ∀ (l : List Char), (l.dropWhile (fun c => c = '_')).head? = some '_' → False := by
  intro l
  induction l with
  | nil => intro h; simp at h
  | cons a t ih =>
      intro h
      rw [List.dropWhile_cons] at h
      by_cases ha : a = '_'
      · rw [if_pos (by simp [ha])] at h
        exact ih h
      · rw [if_neg (by simp [ha])] at h
        simp only [List.head?_cons, Option.some.injEq] at h
        exact ha h

theorem head_dropTrailing :
    ∀ (l : List Char), dropTrailingUnderscores l = [] ∨
      (dropTrailingUnderscores l).head? = l.head? := by
  intro l
  induction l with
  | nil => exact Or.inl rfl
  | cons a t _ =>
      cases hrec : dropTrailingUnderscores t with
      | nil =>
          have he : dropTrailingUnderscores (a :: t) = if a = '_' then [] else [a] := by
            simp only [dropTrailingUnderscores]
            rw [hrec]
          by_cases ha : a = '_'
          · rw [he, if_pos ha]
            exact Or.inl rfl
          · rw [he, if_neg ha]
            exact Or.inr rfl
      | cons b bs =>
          have he : dropTrailingUnderscores (a :: t) = a :: b :: bs := by
            simp only [dropTrailingUnderscores]
            rw [hrec]
          rw [he]
          exact Or.inr rfl

theorem flattenName_head_not_underscore (c a t : String)
    (hh : t.data.head? = some '_') : flattenName c a ≠ t := by
  intro h
  have hdata : dropTrailingUnderscores
      ((c ++ "_" ++ a).data.dropWhile (fun ch => ch = '_')) = t.data :=
    congrArg String.data h
  rcases head_dropTrailing ((c ++ "_" ++ a).data.dropWhile (fun ch => ch = '_')) with h0 | h0
  · rw [h0] at hdata
    rw [← hdata] at hh
    simp at hh
  · rw [hdata, hh] at h0
    exact head_dropWhile_underscore _ h0.symm

theorem setColScalar_not_mem_cols {df : DataFrame} {n name : String} (hne : n ≠ name)
    (h : n ∉ df.cols) (v : Value) : n ∉ (setColScalar df name v).cols := by
  unfold setColScalar
  cases hf : df.cols.findIdx? (fun c => c = name) with
  | some i => exact h
  | none =>
      intro hmem
      rcases List.mem_append.mp hmem with h1 | h1
      · exact h h1
      · exact hne (List.mem_singleton.mp h1)

theorem not_mem_dropCols (df : DataFrame) {names : List String} {c : String}
    (h : names.contains c) : c ∉ (dropCols df names).cols := by
  intro hmem
  unfold dropCols at hmem
  simp only [List.mem_filter] at hmem
  have h2 : ¬ names.contains c = true := by simpa using hmem.2
  exact h2 h

theorem aggCore_cols_not_mem {df : DataFrame} {gb : List String}
    {aggs : List (String × AggSpec)} {out : DataFrame} {t : String}
    (hhead : t.data.head? = some '_') (hdf : t ∉ df.cols)
    (h : aggCore df gb aggs = some out) :
    t ∉ out.cols := by
  unfold aggCore at h
  by_cases hg1 : gb.isEmpty
  case pos => rw [if_pos hg1] at h; cases h
  rw [if_neg hg1] at h
  by_cases hg2 : gb.all (fun g => df.cols.contains g)
  case neg => rw [if_pos hg2] at h; cases h
  rw [if_neg (not_not_intro hg2)] at h
  by_cases hg3 : aggs.all (fun p => df.cols.contains p.1)
  case neg => rw [if_pos hg3] at h; cases h
  rw [if_neg (not_not_intro hg3)] at h
  by_cases hg4 : (aggPairs aggs).all (fun p => supportedAgg p.2)
  case neg => rw [if_pos hg4] at h; cases h
  rw [if_neg (not_not_intro hg4)] at h
  have h2 := Option.some.inj h
  rw [← h2]
  intro hmem
  by_cases hls : hasListSpec aggs
  · simp only [hls, if_true] at hmem
    rcases List.mem_append.mp hmem with h1 | h1
    · have := List.mem_of_elem_eq_true ((List.all_eq_true.mp hg2) _ h1)
      exact hdf this
    · rcases List.mem_map.mp h1 with ⟨pr, _, hpr⟩
      exact flattenName_head_not_underscore pr.1 pr.2 t hhead hpr
  · simp only [hls, Bool.false_eq_true, if_false] at hmem
    rcases List.mem_append.mp hmem with h1 | h1
    · have := List.mem_of_elem_eq_true ((List.all_eq_true.mp hg2) _ h1)
      exact hdf this
    · rcases List.mem_map.mp h1 with ⟨pr, hpr1, hpr⟩
      have := List.mem_of_elem_eq_true ((List.all_eq_true.mp hg3) _ hpr1)
      rw [hpr] at this
      exact hdf this

theorem selectCols_rows_length (df : DataFrame) (names : List String) :
    (selectCols df names).rows.length = df.rows.length := by
  unfold selectCols
  simp

theorem dropCols_rows_length (df : DataFrame) (names : List String) :
    (dropCols df names).rows.length = df.rows.length := by
  unfold dropCols
  simp

/-- C5: `_silver_timestamp` is absent from the column set of every table
that `aggregate` successfully produces and of every `create_fact` output,
even when it is present in the input (both strip it before computing); and
`create_fact` performs no deduplication: its output has exactly one row per
input row. -/
theorem C5_gold_strips_silver_metadata :
    (∀ (fs : FS) (bp : String) (df : DataFrame) (name : String) (gb : List String)
        (aggs : List (String × AggSpec)) (now : String) (out : DataFrame),
      (aggregate fs bp df name gb aggs now).1 = some out →
      "_silver_timestamp" ∉ out.cols) ∧
    (∀ (fs : FS) (bp : String) (df : DataFrame) (name : String)
        (ks ms : List String) (now : String),
      "_silver_timestamp" ∉ ((create_fact fs bp df name ks ms now).1).cols ∧
      ((create_fact fs bp df name ks ms now).1).rows.length = df.rows.length) := by
  constructor
  · intro fs bp df name gb aggs now out h
    have hdrop : "_silver_timestamp" ∉ (dropCols df silverMeta).cols :=
      not_mem_dropCols df (by decide)
    simp only [aggregate] at h
    cases hc : aggCore (dropCols df silverMeta) gb aggs with
    | none => rw [hc] at h; cases h
    | some aggr =>
        rw [hc] at h
        have h2 := Option.some.inj h
        rw [← h2]
        exact setColScalar_not_mem_cols (by decide)
          (aggCore_cols_not_mem (t := "_silver_timestamp") (by decide) hdrop hc)
          (Value.vStr now)
  · intro fs bp df name ks ms now
    constructor
    · have hdrop : "_silver_timestamp" ∉ (dropCols df silverMeta).cols :=
        not_mem_dropCols df (by decide)
      have hsel : "_silver_timestamp"
          ∉ (selectCols (dropCols df silverMeta)
              (((ks ++ ms).filter (fun c => (dropCols df silverMeta).cols.contains c)))).cols := by
        intro hmem
        unfold selectCols at hmem
        simp only [List.mem_filter] at hmem
        exact hdrop (List.mem_of_elem_eq_true (by simpa using hmem.2))
      exact setColScalar_not_mem_cols (by decide) hsel (Value.vStr now)
    · show (setColScalar _ _ _).rows.length = _
      rw [setColScalar_rows_length, selectCols_rows_length, dropCols_rows_length]

/-- Witness for C5: a successful concrete aggregate call on an input that
contains `_silver_timestamp`. -/
theorem C5_witness :
    (aggregate [] "gld"
        ⟨["g", "q", "_silver_timestamp"],
          [[Value.vStr "A", Value.vInt 1, Value.vStr "S"]]⟩
        "t" ["g"] [("q", AggSpec.one "sum")] "T").1
      = some ⟨["g", "q", "_gold_timestamp"],
          [[Value.vStr "A", Value.vInt 1, Value.vStr "T"]]⟩ ∧
    "_silver_timestamp" ∉ (⟨["g", "q", "_gold_timestamp"],
          [[Value.vStr "A", Value.vInt 1, Value.vStr "T"]]⟩ : DataFrame).cols := by
  refine ⟨by decide, ?_⟩
  exact (C5_gold_strips_silver_metadata).1 [] "gld"
    ⟨["g", "q", "_silver_timestamp"], [[Value.vStr "A", Value.vInt 1, Value.vStr "S"]]⟩
    "t" ["g"] [("q", AggSpec.one "sum")] "T"
    ⟨["g", "q", "_gold_timestamp"], [[Value.vStr "A", Value.vInt 1, Value.vStr "T"]]⟩
    (by decide)

/-! ## Claim C6 -/

/-- C6: a read (`read_table` in any layer, or the `load_csv` implementing
`ingest_data`'s load) fails with the not-found error exactly when the target
path is absent from the store; and a failing operation persists nothing:
`ingest_data` on a missing source, a failing `aggregate`, and a failing
`join_tables` all leave the store exactly as it was. -/
theorem C6_read_not_found_and_no_partial_persist :
    (∀ (fs : FS) (basePath name : String),
      read_table fs basePath name = Except.error PipeErr.notFound
        ↔ fs.lookup (tablePath basePath name) = none) ∧
    (∀ (fs : FS) (p : String),
      load_csv fs p = Except.error PipeErr.notFound ↔ fs.lookup p = none) ∧
    (∀ (fs : FS) (bp sp name s now : String),
      fs.lookup sp = none →
      ingest_data fs bp sp name s now = (Except.error PipeErr.notFound, fs)) ∧
    (∀ (fs : FS) (bp : String) (df : DataFrame) (name : String) (gb : List String)
        (aggs : List (String × AggSpec)) (now : String),
      (aggregate fs bp df name gb aggs now).1 = none →
      (aggregate fs bp df name gb aggs now).2 = fs) ∧
    (∀ (fs : FS) (bp : String) (l r : DataFrame) (name : String)
        (onCols : List String) (how now : String),
      (join_tables fs bp l r name onCols how now).1 = none →
      (join_tables fs bp l r name onCols how now).2 = fs) := by
  have hload : ∀ (fs : FS) (p : String),
      load_csv fs p = Except.error PipeErr.notFound ↔ fs.lookup p = none := by
    intro fs p
    cases hl : fs.lookup p with
    | none => simp [load_csv, hl]
    | some df => simp [load_csv, hl]
  refine ⟨?_, hload, ?_, ?_, ?_⟩
  · intro fs basePath name
    exact hload fs (tablePath basePath name)
  · intro fs bp sp name s now h
    simp [ingest_data, load_csv, h]
  · intro fs bp df name gb aggs now h
    simp only [aggregate] at h ⊢
    cases hc : aggCore (dropCols df silverMeta) gb aggs with
    | none => rfl
    | some aggr => rw [hc] at h; cases h
  · intro fs bp l r name onCols how now h
    simp only [join_tables] at h ⊢
    by_cases hg : ¬ (onCols.all (fun c => l.cols.contains c)
        ∧ onCols.all (fun c => r.cols.contains c))
    · rw [if_pos hg]
    · rw [if_neg hg] at h ⊢
      cases hm : mergeRows l r onCols how with
      | none => rfl
      | some rs => rw [hm] at h; cases h

/-- Witness for C6: ingesting from a missing source path fails with
not-found and leaves the (empty) store unchanged. -/
theorem C6_witness :
    ([] : FS).lookup "missing.csv" = none ∧
    ingest_data [] "data/raw" "missing.csv" "t" "s" "T"
      = (Except.error PipeErr.notFound, []) := by
  refine ⟨rfl, ?_⟩
  exact (C6_read_not_found_and_no_partial_persist).2.2.1 [] "data/raw" "missing.csv"
    "t" "s" "T" rfl

/-! ## Claim C7 -/

theorem validateTypes_error_iff (df : PdSchema) :
    ∀ (ct : List (String × String)),
      (∃ e, validateTypes df ct = Except.error e)
        ↔ ∃ p ∈ ct, p.1 ∈ df.cols ∧ obsDtype df p.1 ≠ p.2 ∧
            ¬ ((p.2 = "float64" ∨ p.2 = "int64") ∧ is_numeric_dtype (obsDtype df p.1)) := by
  intro ct
  induction ct with
  | nil =>
      constructor
      · rintro ⟨e, he⟩; cases he
      · rintro ⟨p, hp, _⟩; cases hp
  | cons hd tl ih =>
      obtain ⟨col, exp⟩ := hd
      by_cases h1 : df.cols.contains col ∧ ¬ obsDtype df col = exp
      · by_cases h2 : (exp = "float64" ∨ exp = "int64") ∧ is_numeric_dtype (obsDtype df col)
        · have he : validateTypes df ((col, exp) :: tl) = validateTypes df tl := by
            simp only [validateTypes]
            rw [if_pos h1, if_pos h2]
          rw [he, ih]
          constructor
          · rintro ⟨p, hp, hrest⟩
            exact ⟨p, List.mem_cons_of_mem _ hp, hrest⟩
          · rintro ⟨p, hp, hrest⟩
            rcases List.mem_cons.mp hp with rfl | hp2
            · exact absurd h2 hrest.2.2
            · exact ⟨p, hp2, hrest⟩
        · have he : ∃ e, validateTypes df ((col, exp) :: tl) = Except.error e := by
            refine ⟨"Column " ++ col ++ " has type " ++ obsDtype df col
              ++ ", expected " ++ exp, ?_⟩
            simp only [validateTypes]
            rw [if_pos h1, if_neg h2]
          constructor
          · intro _
            exact ⟨(col, exp), List.mem_cons_self _ _,
              List.mem_of_elem_eq_true h1.1, h1.2, h2⟩
          · intro _
            exact he
      · have he : validateTypes df ((col, exp) :: tl) = validateTypes df tl := by
          simp only [validateTypes]
          rw [if_neg h1]
        rw [he, ih]
        constructor
        · rintro ⟨p, hp, hrest⟩
          exact ⟨p, List.mem_cons_of_mem _ hp, hrest⟩
        · rintro ⟨p, hp, hrest⟩
          rcases List.mem_cons.mp hp with rfl | hp2
          · exact absurd ⟨List.elem_eq_true_of_mem hrest.1, hrest.2.1⟩ h1
          · exact ⟨p, hp2, hrest⟩

theorem validateTypes_ok_or_error (df : PdSchema) :
    ∀ (ct : List (String × String)),
      validateTypes df ct = Except.ok true ∨ ∃ e, validateTypes df ct = Except.error e := by
  intro ct
  induction ct with
  | nil => exact Or.inl rfl
  | cons hd tl ih =>
      obtain ⟨col, exp⟩ := hd
      by_cases h1 : df.cols.contains col ∧ ¬ obsDtype df col = exp
      · by_cases h2 : (exp = "float64" ∨ exp = "int64") ∧ is_numeric_dtype (obsDtype df col)
        · have he : validateTypes df ((col, exp) :: tl) = validateTypes df tl := by
            simp only [validateTypes]
            rw [if_pos h1, if_pos h2]
          rw [he]
          exact ih
        · refine Or.inr ⟨"Column " ++ col ++ " has type " ++ obsDtype df col
            ++ ", expected " ++ exp, ?_⟩
          simp only [validateTypes]
          rw [if_pos h1, if_neg h2]
      · have he : validateTypes df ((col, exp) :: tl) = validateTypes df tl := by
          simp only [validateTypes]
          rw [if_neg h1]
        rw [he]
        exact ih

/-- C7 (as stated) is false: with expected type `int32` and observed dtype
`int64` — a numeric-vs-numeric mismatch — `validate_schema` raises, because
the code's tolerance only applies when the expected type is exactly
`"float64"` or `"int64"`. -/
theorem C7_counterexample :
    is_numeric_dtype "int32" = true ∧ is_numeric_dtype "int64" = true ∧
    validate_schema ⟨["a"], [("a", "int64")]⟩ [] [("a", "int32")]
      = Except.error "Column a has type int64, expected int32" := by
  exact ⟨rfl, rfl, rfl⟩

/-- C7 (amended): `validate_schema` raises exactly when a required column is
missing, or when some listed column is present with an observed dtype unequal
to the expected one and the mismatch is not excused by the tolerance rule —
which applies only when the expected type is exactly `float64` or `int64`
and the observed dtype is numeric; in every other case it returns `true`. -/
theorem C7_validate_schema_characterization
    (df : PdSchema) (required : List String) (ct : List (String × String)) :
    ((∃ e, validate_schema df required ct = Except.error e)
      ↔ ((∃ c ∈ required, c ∉ df.cols) ∨
          ∃ p ∈ ct, p.1 ∈ df.cols ∧ obsDtype df p.1 ≠ p.2 ∧
            ¬ ((p.2 = "float64" ∨ p.2 = "int64") ∧ is_numeric_dtype (obsDtype df p.1)))) ∧
    ((∃ e, validate_schema df required ct = Except.error e) ∨
      validate_schema df required ct = Except.ok true) := by
  by_cases hm : required.any (fun c => ¬ df.cols.contains c)
  · have he : validate_schema df required ct = Except.error "Missing required columns" := by
      simp only [validate_schema]
      rw [if_pos hm]
    constructor
    · constructor
      · intro _
        left
        rcases List.any_eq_true.mp hm with ⟨c, hc, hcc⟩
        refine ⟨c, hc, ?_⟩
        intro hmem
        have hcval : ¬ df.cols.contains c = true := by simpa using hcc
        exact hcval (List.elem_eq_true_of_mem hmem)
      · intro _
        exact ⟨_, he⟩
    · exact Or.inl ⟨_, he⟩
  · have he : validate_schema df required ct = validateTypes df ct := by
      simp only [validate_schema]
      rw [if_neg hm]
    have hnomiss : ¬ ∃ c ∈ required, c ∉ df.cols := by
      rintro ⟨c, hc, hcc⟩
      refine hm (List.any_eq_true.mpr ⟨c, hc, ?_⟩)
      have hcontains : ¬ df.cols.contains c = true :=
        fun h => hcc (List.mem_of_elem_eq_true h)
      simpa using hcontains
    constructor
    · rw [he, validateTypes_error_iff]
      constructor
      · intro h
        exact Or.inr h
      · intro h
        rcases h with h | h
        · exact absurd h hnomiss
        · exact h
    · rw [he]
      rcases validateTypes_ok_or_error df ct with h | h
      · exact Or.inr h
      · exact Or.inl h

/-! ## Claim C8 -/

theorem hGet_append {h : Heap} {r : Nat} (hr : r < h.length) (d : DataFrame) :
    hGet (h ++ [d]) r = hGet h r := by
  unfold hGet
  exact List.getD_append h [d] default r hr

theorem hGet_set_ne {h : Heap} {i r : Nat} (hne : i ≠ r) (d : DataFrame) :
    hGet (hSet h i d) r = hGet h r := by
  unfold hGet hSet
  rw [List.getD_eq_getElem?_getD, List.getD_eq_getElem?_getD, List.getElem?_set_ne hne]

theorem hGet_foldl_preserve {β : Type} (s : Heap → β → Heap) (rc : Nat)
    (hs : ∀ (hh : Heap) (m : β) (r : Nat), r ≠ rc → hGet (s hh m) r = hGet hh r) :
    ∀ (ms : List β) (h : Heap) (r : Nat), r ≠ rc →
      hGet (ms.foldl s h) r = hGet h r := by
  intro ms
  induction ms with
  | nil => intro h r _; rfl
  | cons m tl ih =>
      intro h r hne
      rw [List.foldl_cons, ih _ _ hne, hs h m r hne]

/-- C8: no public operation mutates the caller's input table object: in the
heap model of Python object aliasing, every operation either copies its
argument before the in-place metadata/column assignments or applies them to
a fresh engine-returned object, so the heap cell of the caller's argument is
unchanged by all ten public operations. -/
theorem C8_no_input_mutation :
    (∀ (h : Heap) (r : Nat) (s now : String), r < h.length →
      hGet ((ingest_dataframeH h r s now).2) r = hGet h r) ∧
    (∀ (h : Heap) (r : Nat) (ts : List (DataFrame → DataFrame)) (dedup dropN : Bool)
        (nullCols : Option (List String)) (now : String), r < h.length →
      hGet ((transformH h r ts dedup dropN nullCols now).2) r = hGet h r) ∧
    (∀ (h : Heap) (r : Nat), r < h.length →
      hGet ((clean_column_namesH h r).2) r = hGet h r) ∧
    (∀ (toDt strf : Value → Value) (h : Heap) (r : Nat) (dcs : List String),
        r < h.length →
      hGet ((standardize_datesH toDt strf h r dcs).2) r = hGet h r) ∧
    (∀ (f1 f2 f3 f4 : Value → Value) (h : Heap) (r : Nat)
        (tm : List (String × String)), r < h.length →
      hGet ((cast_typesH f1 f2 f3 f4 h r tm).2) r = hGet h r) ∧
    (∀ (h : Heap) (r : Nat) (gb : List String) (aggs : List (String × AggSpec))
        (now : String), r < h.length →
      hGet ((aggregateH h r gb aggs now).2) r = hGet h r) ∧
    (∀ (h : Heap) (r : Nat) (key : String) (attrs : List String) (now : String),
        r < h.length →
      hGet ((create_dimensionH h r key attrs now).2) r = hGet h r) ∧
    (∀ (h : Heap) (r : Nat) (ks ms : List String) (now : String), r < h.length →
      hGet ((create_factH h r ks ms now).2) r = hGet h r) ∧
    (∀ (h : Heap) (r1 r2 : Nat) (onCols : List String) (how now : String),
        r1 < h.length → r2 < h.length →
      hGet ((join_tablesH h r1 r2 onCols how now).2) r1 = hGet h r1 ∧
      hGet ((join_tablesH h r1 r2 onCols how now).2) r2 = hGet h r2) ∧
    (∀ (h : Heap) (r : Nat) (metrics : List (String × (DataFrame → List Value)))
        (now : String), r < h.length →
      hGet ((calculate_metricsH h r metrics now).2) r = hGet h r) := by
  refine ⟨?_, ?_, ?_, ?_, ?_, ?_, ?_, ?_, ?_, ?_⟩
  · intro h r s now hr
    simp only [ingest_dataframeH, hAlloc]
    rw [hGet_set_ne (ne_of_gt hr), hGet_set_ne (ne_of_gt hr), hGet_append hr]
  · intro h r ts dedup dropN nullCols now hr
    simp only [transformH, hAlloc]
    rw [hGet_set_ne (by simp; omega), hGet_append (by simp; omega), hGet_append hr]
  · intro h r hr
    simp only [clean_column_namesH, hAlloc]
    rw [hGet_set_ne (ne_of_gt hr), hGet_append hr]
  · intro toDt strf h r dcs hr
    simp only [standardize_datesH, hAlloc]
    rw [hGet_foldl_preserve
      (fun hh col => if (hGet hh h.length).cols.contains col then
          hSet (hSet hh h.length (mapColInPlace (hGet hh h.length) col toDt)) h.length
            (mapColInPlace
              (hGet (hSet hh h.length (mapColInPlace (hGet hh h.length) col toDt)) h.length)
              col strf)
        else hh)
      h.length
      (fun hh m rr hne => by
        dsimp only
        by_cases hc : (hGet hh h.length).cols.contains m
        · rw [if_pos hc, hGet_set_ne (Ne.symm hne), hGet_set_ne (Ne.symm hne)]
        · rw [if_neg hc])
      dcs _ r (ne_of_lt hr)]
    exact hGet_append hr _
  · intro f1 f2 f3 f4 h r tm hr
    simp only [cast_typesH, hAlloc]
    rw [hGet_foldl_preserve
      (fun hh cd => if (hGet hh h.length).cols.contains cd.1 then
          if cd.2 = "int" then hSet hh h.length (mapColInPlace (hGet hh h.length) cd.1 f1)
          else if cd.2 = "float" then hSet hh h.length (mapColInPlace (hGet hh h.length) cd.1 f2)
          else if cd.2 = "str" then hSet hh h.length (mapColInPlace (hGet hh h.length) cd.1 f3)
          else if cd.2 = "datetime" then hSet hh h.length (mapColInPlace (hGet hh h.length) cd.1 f4)
          else hh
        else hh)
      h.length
      (fun hh m rr hne => by
        dsimp only
        by_cases hc : (hGet hh h.length).cols.contains m.1
        · rw [if_pos hc]
          by_cases hcase1 : m.2 = "int"
          · rw [if_pos hcase1, hGet_set_ne (Ne.symm hne)]
          rw [if_neg hcase1]
          by_cases hcase2 : m.2 = "float"
          · rw [if_pos hcase2, hGet_set_ne (Ne.symm hne)]
          rw [if_neg hcase2]
          by_cases hcase3 : m.2 = "str"
          · rw [if_pos hcase3, hGet_set_ne (Ne.symm hne)]
          rw [if_neg hcase3]
          by_cases hcase4 : m.2 = "datetime"
          · rw [if_pos hcase4, hGet_set_ne (Ne.symm hne)]
          rw [if_neg hcase4]
        · rw [if_neg hc])
      tm _ r (ne_of_lt hr)]
    exact hGet_append hr _
  · intro h r gb aggs now hr
    simp only [aggregateH, hAlloc]
    cases hc : aggCore (dropCols (hGet (h ++ [hGet h r]) h.length) silverMeta) gb aggs with
    | none => exact hGet_append hr _
    | some aggv =>
        rw [hGet_set_ne (by simp; omega), hGet_append (by simp; omega), hGet_append hr]
  · intro h r key attrs now hr
    simp only [create_dimensionH, hAlloc]
    rw [hGet_set_ne (ne_of_gt hr), hGet_append hr]
  · intro h r ks ms now hr
    simp only [create_factH, hAlloc]
    rw [hGet_set_ne (ne_of_gt hr), hGet_append hr]
  · intro h r1 r2 onCols how now hr1 hr2
    simp only [join_tablesH, hAlloc]
    by_cases hg : ¬ (onCols.all (fun c => (hGet h r1).cols.contains c)
        ∧ onCols.all (fun c => (hGet h r2).cols.contains c))
    · rw [if_pos hg]
      exact ⟨rfl, rfl⟩
    · rw [if_neg hg]
      cases hm : mergeRows (hGet h r1) (hGet h r2) onCols how with
      | none => exact ⟨rfl, rfl⟩
      | some rs =>
          constructor
          · rw [hGet_set_ne (ne_of_gt hr1), hGet_append hr1]
          · rw [hGet_set_ne (ne_of_gt hr2), hGet_append hr2]
  · intro h r metrics now hr
    simp only [calculate_metricsH, hAlloc]
    rw [hGet_set_ne (ne_of_gt hr)]
    rw [hGet_foldl_preserve
      (fun hh m => hSet hh h.length (setColList (hGet hh h.length) m.1 (m.2 (hGet hh h.length))))
      h.length
      (fun hh m rr hne => hGet_set_ne (Ne.symm hne) _)
      metrics _ r (ne_of_lt hr)]
    exact hGet_append hr _

/-- Witness for C8: each operation applied on a one-cell heap leaves the
caller's table unchanged. -/
theorem C8_witness :
    hGet ((ingest_dataframeH [⟨["a"], [[Value.vInt 1]]⟩] 0 "s" "T").2) 0
      = hGet [⟨["a"], [[Value.vInt 1]]⟩] 0 ∧
    hGet ((transformH [⟨["a"], [[Value.vInt 1]]⟩] 0 [] true false none "T").2) 0
      = hGet [⟨["a"], [[Value.vInt 1]]⟩] 0 ∧
    hGet ((clean_column_namesH [⟨["a"], [[Value.vInt 1]]⟩] 0).2) 0
      = hGet [⟨["a"], [[Value.vInt 1]]⟩] 0 ∧
    hGet ((standardize_datesH id id [⟨["a"], [[Value.vInt 1]]⟩] 0 ["a"]).2) 0
      = hGet [⟨["a"], [[Value.vInt 1]]⟩] 0 ∧
    hGet ((cast_typesH id id id id [⟨["a"], [[Value.vInt 1]]⟩] 0 [("a", "int")]).2) 0
      = hGet [⟨["a"], [[Value.vInt 1]]⟩] 0 ∧
    hGet ((aggregateH [⟨["a"], [[Value.vInt 1]]⟩] 0 ["a"] [] "T").2) 0
      = hGet [⟨["a"], [[Value.vInt 1]]⟩] 0 ∧
    hGet ((create_dimensionH [⟨["a"], [[Value.vInt 1]]⟩] 0 "a" [] "T").2) 0
      = hGet [⟨["a"], [[Value.vInt 1]]⟩] 0 ∧
    hGet ((create_factH [⟨["a"], [[Value.vInt 1]]⟩] 0 ["a"] [] "T").2) 0
      = hGet [⟨["a"], [[Value.vInt 1]]⟩] 0 ∧
    (hGet ((join_tablesH [⟨["a"], [[Value.vInt 1]]⟩] 0 0 ["a"] "inner" "T").2) 0
      = hGet [⟨["a"], [[Value.vInt 1]]⟩] 0 ∧
     hGet ((join_tablesH [⟨["a"], [[Value.vInt 1]]⟩] 0 0 ["a"] "inner" "T").2) 0
      = hGet [⟨["a"], [[Value.vInt 1]]⟩] 0) ∧
    hGet ((calculate_metricsH [⟨["a"], [[Value.vInt 1]]⟩] 0 [] "T").2) 0
      = hGet [⟨["a"], [[Value.vInt 1]]⟩] 0 := by
  refine ⟨C8_no_input_mutation.1 _ 0 "s" "T" (by decide),
    C8_no_input_mutation.2.1 _ 0 [] true false none "T" (by decide),
    C8_no_input_mutation.2.2.1 _ 0 (by decide),
    C8_no_input_mutation.2.2.2.1 id id _ 0 ["a"] (by decide),
    C8_no_input_mutation.2.2.2.2.1 id id id id _ 0 [("a", "int")] (by decide),
    C8_no_input_mutation.2.2.2.2.2.1 _ 0 ["a"] [] "T" (by decide),
    C8_no_input_mutation.2.2.2.2.2.2.1 _ 0 "a" [] "T" (by decide),
    C8_no_input_mutation.2.2.2.2.2.2.2.1 _ 0 ["a"] [] "T" (by decide),
    C8_no_input_mutation.2.2.2.2.2.2.2.2.1 _ 0 0 ["a"] "inner" "T" (by decide) (by decide),
    C8_no_input_mutation.2.2.2.2.2.2.2.2.2 _ 0 [] "T" (by decide)⟩

/-! ## Claim C9 -/

theorem findIdx_label_spec {l : List String} {name : String} {i : Nat}
    (h : l.findIdx? (fun c => c = name) = some i) :
    i < l.length ∧ l.getD i "" = name := by
  obtain ⟨hlt, hp, -⟩ := List.findIdx?_eq_some_iff_getElem.mp h
  refine ⟨hlt, ?_⟩
  have hv := of_decide_eq_true hp
  rw [List.getD_eq_getElem?_getD, List.getElem?_eq_getElem hlt]
  simpa using hv

theorem setColScalar_WF {df : DataFrame} (h : df.WF) (name : String) (v : Value) :
    (setColScalar df name v).WF := by
  unfold setColScalar
  cases hf : df.cols.findIdx? (fun c => c = name) with
  | some i =>
      intro r hr
      simp only [List.mem_map] at hr
      obtain ⟨r0, hr0, rfl⟩ := hr
      simp [h r0 hr0]
  | none =>
      intro r hr
      simp only [List.mem_map] at hr
      obtain ⟨r0, hr0, rfl⟩ := hr
      simp [h r0 hr0]

theorem setColScalar_cols_indep (df : DataFrame) (name : String) (v v' : Value) :
    (setColScalar df name v).cols = (setColScalar df name v').cols := by
  unfold setColScalar
  cases df.cols.findIdx? (fun c => c = name) <;> rfl

theorem setColScalar_cols_congr {d1 d2 : DataFrame} (h : d1.cols = d2.cols)
    (n : String) (v w : Value) :
    (setColScalar d1 n v).cols = (setColScalar d2 n w).cols := by
  unfold setColScalar
  cases hf : d1.cols.findIdx? (fun c => c = n) with
  | some i =>
      rw [h] at hf
      rw [hf]
      exact h
  | none =>
      rw [h] at hf
      rw [hf]
      show d1.cols ++ [n] = d2.cols ++ [n]
      rw [h]

theorem colVals_setColScalar_other {df : DataFrame} (hWF : df.WF) {c name : String}
    (hne : c ≠ name) (v : Value) :
    colVals (setColScalar df name v) c = colVals df c := by
  unfold setColScalar
  cases hf : df.cols.findIdx? (fun x => x = name) with
  | some i =>
      obtain ⟨hlt, hgd⟩ := findIdx_label_spec hf
      unfold colVals colIdx
      show (match df.cols.findIdx? (fun x => x = c) with
            | some j => (df.rows.map (fun (r : List Value) => r.set i v)).map
                (fun (r : List Value) => r.getD j Value.vNull)
            | none => ([] : List Value))
          = (match df.cols.findIdx? (fun x => x = c) with
            | some j => df.rows.map (fun (r : List Value) => r.getD j Value.vNull)
            | none => ([] : List Value))
      cases hg : df.cols.findIdx? (fun x => x = c) with
      | none => rfl
      | some j =>
          obtain ⟨hjlt, hjgd⟩ := findIdx_label_spec hg
          have hij : i ≠ j := by
            intro e
            rw [e] at hgd
            rw [hgd] at hjgd
            exact hne hjgd.symm
          show (df.rows.map (fun (r : List Value) => r.set i v)).map
              (fun (r : List Value) => r.getD j Value.vNull)
            = df.rows.map (fun (r : List Value) => r.getD j Value.vNull)
          rw [List.map_map]
          refine List.map_congr_left ?_
          intro r _
          show (r.set i v).getD j Value.vNull = r.getD j Value.vNull
          rw [List.getD_eq_getElem?_getD, List.getD_eq_getElem?_getD,
            List.getElem?_set_ne hij]
  | none =>
      unfold colVals colIdx
      show (match (df.cols ++ [name]).findIdx? (fun x => x = c) with
            | some j => (df.rows.map (fun (r : List Value) => r ++ [v])).map
                (fun (r : List Value) => r.getD j Value.vNull)
            | none => ([] : List Value))
          = (match df.cols.findIdx? (fun x => x = c) with
            | some j => df.rows.map (fun (r : List Value) => r.getD j Value.vNull)
            | none => ([] : List Value))
      cases hg : df.cols.findIdx? (fun x => x = c) with
      | some j =>
          obtain ⟨hjlt, _⟩ := findIdx_label_spec hg
          have hap : (df.cols ++ [name]).findIdx? (fun x => x = c) = some j := by
            rw [List.findIdx?_append, hg]
            rfl
          rw [hap]
          show (df.rows.map (fun (r : List Value) => r ++ [v])).map
              (fun (r : List Value) => r.getD j Value.vNull)
            = df.rows.map (fun (r : List Value) => r.getD j Value.vNull)
          rw [List.map_map]
          refine List.map_congr_left ?_
          intro r hr
          show (r ++ [v]).getD j Value.vNull = r.getD j Value.vNull
          exact List.getD_append r [v] Value.vNull j (by rw [hWF r hr]; exact hjlt)
      | none =>
          have hap : (df.cols ++ [name]).findIdx? (fun x => x = c) = none := by
            rw [List.findIdx?_append, hg]
            have hone : ([name].findIdx? (fun x => x = c)) = none := by
              have hnc : ¬ (name = c) := fun e => hne e.symm
              rw [List.findIdx?_cons, if_neg (by simpa using hnc)]
              rfl
            rw [hone]
            rfl
          rw [hap]

theorem colVals_setColScalar_self {df : DataFrame} (hWF : df.WF)
    (name : String) (v : Value) :
    colVals (setColScalar df name v) name = List.replicate df.rows.length v := by
  unfold setColScalar
  cases hf : df.cols.findIdx? (fun x => x = name) with
  | some i =>
      obtain ⟨hlt, _⟩ := findIdx_label_spec hf
      unfold colVals colIdx
      show (match df.cols.findIdx? (fun x => x = name) with
            | some j => (df.rows.map (fun (r : List Value) => r.set i v)).map
                (fun (r : List Value) => r.getD j Value.vNull)
            | none => ([] : List Value))
          = List.replicate df.rows.length v
      rw [hf]
      show (df.rows.map (fun (r : List Value) => r.set i v)).map
          (fun (r : List Value) => r.getD i Value.vNull) = List.replicate df.rows.length v
      rw [List.map_map]
      have hcong : df.rows.map ((fun (r : List Value) => r.getD i Value.vNull)
            ∘ (fun (r : List Value) => r.set i v))
          = df.rows.map (fun _ => v) := by
        refine List.map_congr_left ?_
        intro r hr
        show (r.set i v).getD i Value.vNull = v
        rw [List.getD_eq_getElem?_getD, List.getElem?_set_self (by rw [hWF r hr]; exact hlt)]
        rfl
      rw [hcong, List.map_const']
  | none =>
      unfold colVals colIdx
      show (match (df.cols ++ [name]).findIdx? (fun x => x = name) with
            | some j => (df.rows.map (fun (r : List Value) => r ++ [v])).map
                (fun (r : List Value) => r.getD j Value.vNull)
            | none => ([] : List Value))
          = List.replicate df.rows.length v
      have h1 : ([name].findIdx? (fun x => x = name)) = some 0 := by
        rw [List.findIdx?_cons, if_pos (by simp)]
      have hj : (df.cols ++ [name]).findIdx? (fun x => x = name)
          = some (0 + df.cols.length) := by
        rw [List.findIdx?_append, hf, h1]
        rfl
      rw [hj]
      show (df.rows.map (fun (r : List Value) => r ++ [v])).map
          (fun (r : List Value) => r.getD (0 + df.cols.length) Value.vNull)
        = List.replicate df.rows.length v
      rw [List.map_map]
      have hcong : df.rows.map ((fun (r : List Value) => r.getD (0 + df.cols.length) Value.vNull)
            ∘ (fun (r : List Value) => r ++ [v]))
          = df.rows.map (fun _ => v) := by
        refine List.map_congr_left ?_
        intro r hr
        show (r ++ [v]).getD (0 + df.cols.length) Value.vNull = v
        rw [List.getD_append_right r [v] Value.vNull _ (by rw [hWF r hr]; omega)]
        have hsub : 0 + df.cols.length - r.length = 0 := by
          rw [hWF r hr]
          omega
        rw [hsub]
        rfl
      rw [hcong, List.map_const']

/-- C9: `ingest_data(p, n, s)` on a source file holding table `df` performs
exactly the load / metadata-append / save pipeline of
`ingest_dataframe(load_csv(p), n, s)`: at the same clock instant the two are
equal as returned table and persisted store, and across different clock
instants their outputs agree on the column list and on the contents of every
column other than `_ingestion_timestamp`. -/
theorem C9_ingest_data_refines_ingest_dataframe
    (fs : FS) (basePath srcPath name s now now1 now2 : String) (df : DataFrame)
    (hWF : df.WF) (h : fs.lookup srcPath = some df) :
    (ingest_data fs basePath srcPath name s now
      = (Except.ok ((ingest_dataframe fs basePath df name s now).1),
          (ingest_dataframe fs basePath df name s now).2)) ∧
    (bronzeAddMeta df now1 s).cols = (bronzeAddMeta df now2 s).cols ∧
    (∀ c, c ≠ "_ingestion_timestamp" →
      colVals (bronzeAddMeta df now1 s) c = colVals (bronzeAddMeta df now2 s) c) := by
  refine ⟨?_, ?_, ?_⟩
  · unfold ingest_data load_csv
    rw [h]
    rfl
  · exact setColScalar_cols_congr
      (setColScalar_cols_indep df "_ingestion_timestamp" (Value.vStr now1) (Value.vStr now2))
      "_source_system" (Value.vStr s) (Value.vStr s)
  · intro c hc
    have hWF1 : (setColScalar df "_ingestion_timestamp" (Value.vStr now1)).WF :=
      setColScalar_WF hWF _ _
    have hWF2 : (setColScalar df "_ingestion_timestamp" (Value.vStr now2)).WF :=
      setColScalar_WF hWF _ _
    by_cases hss : c = "_source_system"
    · subst hss
      unfold bronzeAddMeta
      rw [colVals_setColScalar_self hWF1, colVals_setColScalar_self hWF2,
        setColScalar_rows_length, setColScalar_rows_length]
    · unfold bronzeAddMeta
      rw [colVals_setColScalar_other hWF1 hss, colVals_setColScalar_other hWF2 hss,
        colVals_setColScalar_other hWF hc, colVals_setColScalar_other hWF hc]

/-- Witness for C9 at a concrete store and table. -/
theorem C9_witness :
    (⟨["a"], [[Value.vInt 1]]⟩ : DataFrame).WF ∧
    ingest_data [("s.csv", ⟨["a"], [[Value.vInt 1]]⟩)] "b" "s.csv" "t" "sys" "T"
      = (Except.ok ((ingest_dataframe [("s.csv", ⟨["a"], [[Value.vInt 1]]⟩)] "b"
            ⟨["a"], [[Value.vInt 1]]⟩ "t" "sys" "T").1),
          (ingest_dataframe [("s.csv", ⟨["a"], [[Value.vInt 1]]⟩)] "b"
            ⟨["a"], [[Value.vInt 1]]⟩ "t" "sys" "T").2) := by
  refine ⟨by decide, ?_⟩
  exact (C9_ingest_data_refines_ingest_dataframe
    [("s.csv", ⟨["a"], [[Value.vInt 1]]⟩)] "b" "s.csv" "t" "sys" "T" "T1" "T2"
    ⟨["a"], [[Value.vInt 1]]⟩ (by decide) (by decide)).1

/-! ## Claim C10 -/

theorem setColScalar_getLast {df : DataFrame} {name : String} (h : name ∉ df.cols)
    (v : Value) : (setColScalar df name v).cols.getLast? = some name := by
  rw [setColScalar_not_mem h]
  exact List.getLast?_concat df.cols

theorem append_suffix_ne_gold (c suf : String) (hne : suf.data ≠ [])
    (hlast : suf.data.getLast? ≠ "_gold_timestamp".data.getLast?) :
    c ++ suf ≠ "_gold_timestamp" := by
  intro h
  have h2 : ((c ++ suf).data).getLast? = ("_gold_timestamp".data).getLast? := by rw [h]
  rw [String.data_append, List.getLast?_append_of_ne_nil c.data hne] at h2
  exact hlast h2

theorem mergeCols_no_gold {l r : DataFrame} {onCols : List String}
    (hl : "_gold_timestamp" ∉ l.cols) (hr : "_gold_timestamp" ∉ r.cols) :
    "_gold_timestamp" ∉ mergeCols l r onCols := by
  intro hmem
  unfold mergeCols at hmem
  rcases List.mem_append.mp hmem with h1 | h1
  · rcases List.mem_map.mp h1 with ⟨c, hc, hcc⟩
    by_cases ho : onCols.contains c
    · rw [if_pos ho] at hcc
      exact hl (hcc ▸ hc)
    · rw [if_neg ho] at hcc
      by_cases hrc : r.cols.contains c
      · rw [if_pos hrc] at hcc
        exact append_suffix_ne_gold c "_x" (by decide) (by decide) hcc
      · rw [if_neg hrc] at hcc
        exact hl (hcc ▸ hc)
  · rcases List.mem_map.mp h1 with ⟨c, hc, hcc⟩
    have hcr : c ∈ r.cols := (List.mem_filter.mp hc).1
    by_cases hlc : l.cols.contains c
    · rw [if_pos hlc] at hcc
      exact append_suffix_ne_gold c "_y" (by decide) (by decide) hcc
    · rw [if_neg hlc] at hcc
      exact hr (hcc ▸ hcr)

/-- C10 (as stated) is false: Silver `transform` on a table that already has
a `_silver_timestamp` column in a non-final position overwrites that column
in place, so the output's last column is `a`, not `_silver_timestamp`. -/
theorem C10_counterexample :
    ((transform [] "p" ⟨["_silver_timestamp", "a"], [[Value.vStr "x", Value.vInt 1]]⟩
        "n" [] true false none "T").1).cols.getLast? ≠ some "_silver_timestamp" := by
  decide

/-- C10 (amended): every layer operation whose pre-metadata table does not
already contain the layer's metadata column name appends it as the final
column: Bronze ingestion ends in `_ingestion_timestamp`,`_source_system`,
Silver transform ends in `_silver_timestamp`, and every Gold output ends in
`_gold_timestamp`; when the name is already present it is overwritten in
place and keeps its old position. -/
theorem C10_metadata_columns_last :
    (∀ (fs : FS) (bp : String) (df : DataFrame) (n s now : String),
      "_ingestion_timestamp" ∉ df.cols → "_source_system" ∉ df.cols →
      ((ingest_dataframe fs bp df n s now).1).cols.getLast? = some "_source_system" ∧
      ((ingest_dataframe fs bp df n s now).1).cols.dropLast.getLast?
        = some "_ingestion_timestamp") ∧
    (∀ (fs : FS) (bp : String) (df : DataFrame) (n : String)
        (ts : List (DataFrame → DataFrame)) (dedup dropN : Bool)
        (nullCols : Option (List String)) (now : String),
      "_silver_timestamp" ∉ (silverCore df ts).cols →
      ((transform fs bp df n ts dedup dropN nullCols now).1).cols.getLast?
        = some "_silver_timestamp") ∧
    (∀ (fs : FS) (bp : String) (df : DataFrame) (n : String) (gb : List String)
        (aggs : List (String × AggSpec)) (now : String) (out : DataFrame),
      "_gold_timestamp" ∉ df.cols →
      (aggregate fs bp df n gb aggs now).1 = some out →
      out.cols.getLast? = some "_gold_timestamp") ∧
    (∀ (fs : FS) (bp : String) (df : DataFrame) (n key : String)
        (attrs : List String) (now : String),
      "_gold_timestamp" ∉ df.cols →
      ((create_dimension fs bp df n key attrs now).1).cols.getLast?
        = some "_gold_timestamp") ∧
    (∀ (fs : FS) (bp : String) (df : DataFrame) (n : String) (ks ms : List String)
        (now : String),
      "_gold_timestamp" ∉ df.cols →
      ((create_fact fs bp df n ks ms now).1).cols.getLast? = some "_gold_timestamp") ∧
    (∀ (fs : FS) (bp : String) (l r : DataFrame) (n : String) (onCols : List String)
        (how now : String) (out : DataFrame),
      "_gold_timestamp" ∉ l.cols → "_gold_timestamp" ∉ r.cols →
      (join_tables fs bp l r n onCols how now).1 = some out →
      out.cols.getLast? = some "_gold_timestamp") ∧
    (∀ (fs : FS) (bp : String) (df : DataFrame) (n : String)
        (metrics : List (String × (DataFrame → List Value))) (now : String),
      "_gold_timestamp" ∉ (calcCore df metrics).cols →
      ((calculate_metrics fs bp df n metrics now).1).cols.getLast?
        = some "_gold_timestamp") := by
  refine ⟨?_, ?_, ?_, ?_, ?_, ?_, ?_⟩
  · intro fs bp df n s now hi hs
    have h1 := setColScalar_not_mem hi (Value.vStr now)
    have hs2 : "_source_system"
        ∉ (setColScalar df "_ingestion_timestamp" (Value.vStr now)).cols := by
      rw [h1]
      intro hmem
      rcases List.mem_append.mp hmem with hA | hB
      · exact hs hA
      · simp at hB
    have h2 := setColScalar_not_mem hs2 (Value.vStr s)
    have hcols : ((ingest_dataframe fs bp df n s now).1).cols
        = (df.cols ++ ["_ingestion_timestamp"]) ++ ["_source_system"] := by
      show (setColScalar (setColScalar df "_ingestion_timestamp" (Value.vStr now))
        "_source_system" (Value.vStr s)).cols = _
      rw [h2, h1]
    constructor
    · rw [hcols]
      exact List.getLast?_concat _
    · rw [hcols, List.dropLast_concat]
      exact List.getLast?_concat _
  · intro fs bp df n ts dedup dropN nullCols now hns
    cases dedup <;> cases dropN
    · exact setColScalar_getLast hns (Value.vStr now)
    · exact @setColScalar_getLast (dropnaDf (silverCore df ts) nullCols)
        "_silver_timestamp" hns (Value.vStr now)
    · exact @setColScalar_getLast
        ⟨(silverCore df ts).cols, dedupFirst (silverCore df ts).rows⟩
        "_silver_timestamp" hns (Value.vStr now)
    · exact @setColScalar_getLast
        (dropnaDf ⟨(silverCore df ts).cols, dedupFirst (silverCore df ts).rows⟩ nullCols)
        "_silver_timestamp" hns (Value.vStr now)
  · intro fs bp df n gb aggs now out hg h
    simp only [aggregate] at h
    cases hc : aggCore (dropCols df silverMeta) gb aggs with
    | none => rw [hc] at h; cases h
    | some aggr =>
        rw [hc] at h
        have h2 := Option.some.inj h
        rw [← h2]
        refine setColScalar_getLast ?_ (Value.vStr now)
        refine aggCore_cols_not_mem (t := "_gold_timestamp") (by decide) ?_ hc
        intro hmem
        exact hg (List.mem_filter.mp hmem).1
  · intro fs bp df n key attrs now hg
    refine setColScalar_getLast ?_ (Value.vStr now)
    intro hmem
    have h2 := List.mem_filter.mp hmem
    exact hg (List.mem_of_elem_eq_true h2.2)
  · intro fs bp df n ks ms now hg
    refine setColScalar_getLast ?_ (Value.vStr now)
    intro hmem
    have h2 := List.mem_filter.mp hmem
    have h3 : "_gold_timestamp" ∈ (dropCols df silverMeta).cols :=
      List.mem_of_elem_eq_true h2.2
    exact hg (List.mem_filter.mp h3).1
  · intro fs bp l r n onCols how now out hgl hgr h
    simp only [join_tables] at h
    by_cases hgd : ¬ (onCols.all (fun c => l.cols.contains c)
        ∧ onCols.all (fun c => r.cols.contains c))
    case pos => rw [if_pos hgd] at h; cases h
    rw [if_neg hgd] at h
    cases hm : mergeRows l r onCols how with
    | none => rw [hm] at h; cases h
    | some rs =>
        rw [hm] at h
        have h2 := Option.some.inj h
        rw [← h2]
        exact setColScalar_getLast (mergeCols_no_gold hgl hgr) (Value.vStr now)
  · intro fs bp df n metrics now hg
    exact setColScalar_getLast hg (Value.vStr now)

/-- Witness for C10 at concrete inputs for each operation. -/
theorem C10_witness :
    ((ingest_dataframe [] "b" ⟨["a"], [[Value.vInt 1]]⟩ "t" "s" "T").1).cols.getLast?
      = some "_source_system" ∧
    ((transform [] "p" ⟨["a"], [[Value.vInt 1]]⟩ "t" [] true false none "T").1).cols.getLast?
      = some "_silver_timestamp" ∧
    (⟨["g1", "q", "_gold_timestamp"],
      [[Value.vStr "A", Value.vInt 1, Value.vStr "T"]]⟩ : DataFrame).cols.getLast?
      = some "_gold_timestamp" ∧
    ((create_dimension [] "g" ⟨["a"], [[Value.vInt 1]]⟩ "t" "a" [] "T").1).cols.getLast?
      = some "_gold_timestamp" ∧
    ((create_fact [] "g" ⟨["a"], [[Value.vInt 1]]⟩ "t" ["a"] [] "T").1).cols.getLast?
      = some "_gold_timestamp" ∧
    (⟨["a", "_gold_timestamp"],
      [[Value.vInt 1, Value.vStr "T"]]⟩ : DataFrame).cols.getLast?
      = some "_gold_timestamp" ∧
    ((calculate_metrics [] "g" ⟨["a"], [[Value.vInt 1]]⟩ "t" [] "T").1).cols.getLast?
      = some "_gold_timestamp" := by
  refine ⟨(C10_metadata_columns_last.1 [] "b" ⟨["a"], [[Value.vInt 1]]⟩ "t" "s" "T"
      (by decide) (by decide)).1,
    C10_metadata_columns_last.2.1 [] "p" ⟨["a"], [[Value.vInt 1]]⟩ "t" [] true false
      none "T" (by decide),
    C10_metadata_columns_last.2.2.1 [] "g" ⟨["g1", "q"], [[Value.vStr "A", Value.vInt 1]]⟩
      "t" ["g1"] [("q", AggSpec.one "sum")] "T"
      ⟨["g1", "q", "_gold_timestamp"], [[Value.vStr "A", Value.vInt 1, Value.vStr "T"]]⟩
      (by decide) (by decide),
    C10_metadata_columns_last.2.2.2.1 [] "g" ⟨["a"], [[Value.vInt 1]]⟩ "t" "a" [] "T"
      (by decide),
    C10_metadata_columns_last.2.2.2.2.1 [] "g" ⟨["a"], [[Value.vInt 1]]⟩ "t" ["a"] [] "T"
      (by decide),
    C10_metadata_columns_last.2.2.2.2.2.1 [] "g" ⟨["a"], [[Value.vInt 1]]⟩
      ⟨["a"], [[Value.vInt 1]]⟩ "t" ["a"] "inner" "T"
      ⟨["a", "_gold_timestamp"], [[Value.vInt 1, Value.vStr "T"]]⟩
      (by decide) (by decide) (by decide),
    C10_metadata_columns_last.2.2.2.2.2.2 [] "g" ⟨["a"], [[Value.vInt 1]]⟩ "t" [] "T"
      (by decide)⟩
